import Mathlib

/-!
Verification development for the AutoBt backtesting-support library.

The development shallowly embeds the two core components of the repository:

* `src/utils/metrics.py` — the performance-metrics engine (`calculate_metrics`
  and its helper functions).  Python/NumPy floating-point values are modelled
  by the type `EF` below: an exact real number together with the three IEEE
  special values `nan`, `+inf` and `-inf`.  Rounding and overflow are not
  modelled (values are exact reals); the NaN/Inf propagation rules of
  IEEE-754 arithmetic, which the degenerate-input behaviour of the metrics
  engine depends on, are modelled faithfully.

* `src/data_generators/*.py` — the stochastic OHLCV data generators.  The
  pseudo-random draws consumed by a generator are modelled by explicit
  oracle streams (`Oracle` below); a theorem quantifying over all oracles
  covers every realisable sequence of draws of the original program.
-/

noncomputable section

namespace AutoBt

/-- Model of a Python/NumPy float: an exact real, or one of the IEEE special
values NaN, +inf, -inf.  Rounding/overflow of finite values is not modelled. -/
inductive EF : Type
  | nan : EF
  | inf : EF
  | ninf : EF
  | fin : ℝ → EF

instance : Inhabited EF := ⟨EF.nan⟩

namespace EF

/-- IEEE negation. -/
def neg : EF → EF
  | nan => nan
  | inf => ninf
  | ninf => inf
  | fin a => fin (-a)

/-- IEEE addition: NaN absorbs, `inf + (-inf) = NaN`. -/
def add : EF → EF → EF
  | nan, _ => nan
  | _, nan => nan
  | inf, ninf => nan
  | ninf, inf => nan
  | inf, _ => inf
  | ninf, _ => ninf
  | fin _, inf => inf
  | fin _, ninf => ninf
  | fin a, fin b => fin (a + b)

/-- IEEE subtraction, defined as `x + (-y)`. -/
def sub (x y : EF) : EF := add x (neg y)

/-- IEEE multiplication: NaN absorbs, `±inf * 0 = NaN`. -/
def mul : EF → EF → EF
  | nan, _ => nan
  | _, nan => nan
  | inf, inf => inf
  | inf, ninf => ninf
  | ninf, inf => ninf
  | ninf, ninf => inf
  | inf, fin b => if 0 < b then inf else if b < 0 then ninf else nan
  | ninf, fin b => if 0 < b then ninf else if b < 0 then inf else nan
  | fin a, inf => if 0 < a then inf else if a < 0 then ninf else nan
  | fin a, ninf => if 0 < a then ninf else if a < 0 then inf else nan
  | fin a, fin b => fin (a * b)

/-- IEEE division (NumPy semantics): finite/0 is a signed infinity (NaN for
0/0), finite/±inf is 0, ±inf/±inf is NaN. -/
def div : EF → EF → EF
  | nan, _ => nan
  | _, nan => nan
  | inf, inf => nan
  | inf, ninf => nan
  | ninf, inf => nan
  | ninf, ninf => nan
  | inf, fin b => if 0 ≤ b then inf else ninf
  | ninf, fin b => if 0 ≤ b then ninf else inf
  | fin _, inf => fin 0
  | fin _, ninf => fin 0
  | fin a, fin b =>
      if b = 0 then (if 0 < a then inf else if a < 0 then ninf else nan)
      else fin (a / b)

/-- IEEE strict order as a boolean; every comparison with NaN is `false`. -/
def ltb : EF → EF → Bool
  | nan, _ => false
  | _, nan => false
  | ninf, ninf => false
  | ninf, _ => true
  | _, inf => true
  | inf, _ => false
  | fin _, ninf => false
  | fin a, fin b => decide (a < b)

/-- IEEE non-strict order as a boolean; every comparison with NaN is `false`. -/
def leb : EF → EF → Bool
  | nan, _ => false
  | _, nan => false
  | ninf, _ => true
  | _, inf => true
  | inf, _ => false
  | fin _, ninf => false
  | fin a, fin b => decide (a ≤ b)

/-- IEEE equality test; `NaN == NaN` is `false`. -/
def beq : EF → EF → Bool
  | inf, inf => true
  | ninf, ninf => true
  | fin a, fin b => decide (a = b)
  | _, _ => false

/-- Model of `pandas.isna` on a scalar. -/
def isna : EF → Bool
  | nan => true
  | _ => false

/-- Model of `numpy.isinf` (`false` on NaN). -/
def isinf : EF → Bool
  | inf => true
  | ninf => true
  | _ => false

/-- IEEE absolute value. -/
def abs : EF → EF
  | nan => nan
  | inf => inf
  | ninf => inf
  | fin a => fin |a|

/-- `numpy.sqrt`: NaN on negative arguments and on NaN, +inf on +inf. -/
def sqrt : EF → EF
  | nan => nan
  | inf => inf
  | ninf => nan
  | fin a => if 0 ≤ a then fin (Real.sqrt a) else nan

/-- Model of Python float `**` with a real exponent, for the base values that
`calculate_cagr` can produce.  For finite nonnegative bases this is
`Real.rpow`, which matches CPython exactly there (`0.0 ** 0.0 = 1`,
`0.0 ** y = 0` for `y > 0`).  A negative finite base with a fractional
exponent makes CPython return a complex number; that case is modelled as NaN
and is unreachable in the guarded call site (`start > 0` is checked first and
the exponent is positive). -/
def powR : EF → ℝ → EF
  | nan, _ => nan
  | inf, y => if 0 < y then inf else if y < 0 then fin 0 else fin 1
  | ninf, _ => nan
  | fin a, y => if 0 ≤ a then fin (a ^ y) else nan

/-- A value is finite when it is neither NaN nor an infinity. -/
def Finite (x : EF) : Prop := x.isna = false ∧ x.isinf = false

end EF

/-! ### Pandas series primitives

`src/utils/metrics.py` works on `pandas.Series`.  A series is modelled as a
`List EF` (values) or, where the datetime index matters (`calculate_cagr`),
as a `List (ℤ × EF)` of (epoch-seconds timestamp, value) pairs.  The list
operations below model the pandas/numpy primitives the metrics engine uses,
including their skip-NaN conventions. -/

/-- Model of `Series.ffill` (helper: carry the last non-NaN value forward,
`prev` being the carried value, initially NaN). -/
def ffillGo (prev : EF) : List EF → List EF
  | [] => []
  | x :: xs => if x.isna then prev :: ffillGo prev xs else x :: ffillGo x xs

/-- Model of `Series.ffill`: forward-fill NaN entries. -/
def ffill (xs : List EF) : List EF := ffillGo EF.nan xs

/-- Model of `Series.bfill`: backward-fill NaN entries. -/
def bfill (xs : List EF) : List EF := (ffillGo EF.nan xs.reverse).reverse

/-- Model of `Series.fillna(0)`. -/
def fillna0 (xs : List EF) : List EF :=
  xs.map (fun x => if x.isna then EF.fin 0 else x)

/-- Model of `Series.mean()` (skipna, as pandas defaults): NaN entries are
dropped; the mean of an empty or all-NaN series is NaN. -/
def meanE (xs : List EF) : EF :=
  let xs' := xs.filter (fun x => !x.isna)
  if xs'.isEmpty then EF.nan
  else (xs'.foldr EF.add (EF.fin 0)).div (EF.fin xs'.length)

/-- Model of `Series.std()` (skipna, `ddof=1`, as pandas defaults), computed
compositionally so that the IEEE corner cases emerge as in numpy: a series
with fewer than two non-NaN entries gives `0/0 = NaN`; an infinite entry
makes the mean infinite and `inf - inf = NaN` poisons the sum. -/
def stdE (xs : List EF) : EF :=
  let xs' := xs.filter (fun x => !x.isna)
  let m := meanE xs
  (((xs'.map (fun x => (x.sub m).mul (x.sub m))).foldr EF.add (EF.fin 0)).div
    (EF.fin (xs'.length - 1 : ℕ))).sqrt

/-- Model of `Series.cummax()` (skipna): NaN entries stay NaN in the output
and do not update the running maximum `m` (initially unset, modelled as
`-inf`). -/
def cummaxGo (m : EF) : List EF → List EF
  | [] => []
  | x :: xs =>
      if x.isna then EF.nan :: cummaxGo m xs
      else
        let m' := if m.ltb x then x else m
        m' :: cummaxGo m' xs

/-- Model of `Series.cummax()`. -/
def cummax (xs : List EF) : List EF := cummaxGo EF.ninf xs

/-- Model of `Series.min()` (skipna): NaN entries are dropped, the minimum of
an empty or all-NaN series is NaN. -/
def seriesMin (xs : List EF) : EF :=
  match xs.filter (fun x => !x.isna) with
  | [] => EF.nan
  | y :: ys => ys.foldl (fun a b => if b.ltb a then b else a) y

/-- Model of `Series.pct_change()`: first entry NaN, entry `i` is
`x[i]/x[i-1] - 1` (IEEE division, so a zero previous value yields ±inf or
NaN).  The call sites apply it to already forward/backward-filled values. -/
def pctChange : List EF → List EF
  | [] => []
  | x :: xs => EF.nan :: pctChangeGo x xs
where
  pctChangeGo (prev : EF) : List EF → List EF
    | [] => []
    | y :: ys => ((y.div prev).sub (EF.fin 1)) :: pctChangeGo y ys

/-! ### The metrics engine, `src/utils/metrics.py` -/

/-- A portfolio-value series: (epoch-seconds timestamp, value) pairs.  The
timestamps model the `DatetimeIndex` of the pandas series; only differences
in seconds are ever used (`metrics.py` line 110). -/
def PSeries : Type := List (ℤ × EF)

/-- Forward/backward-fill the values of a timestamped series, keeping the
index (models `portfolio_values.ffill().bfill()` on a series). -/
def fillSeries (s : List (ℤ × EF)) : List (ℤ × EF) :=
  (s.map Prod.fst).zip (bfill (ffill (s.map Prod.snd)))

/-- Embedding of `calculate_sharpe_ratio` (`metrics.py` lines 5–31). -/
def calculate_sharpe_ratio (returns : List EF) (risk_free_rate : ℝ)
    (periods_per_year : ℕ) : EF :=
  if returns.length < 2 then EF.fin 0
  else
    let returns := fillna0 returns
    let excess_returns :=
      returns.map (fun r => r.sub (EF.fin (risk_free_rate / periods_per_year)))
    let std := stdE excess_returns
    if std.beq (EF.fin 0) then EF.fin 0
    else ((meanE excess_returns).div std).mul
      (EF.fin (Real.sqrt periods_per_year))

/-- Embedding of `calculate_max_drawdown` (`metrics.py` lines 33–58); takes
the series values (the index is unused in the source body). -/
def calculate_max_drawdown (portfolio_values : List EF) : EF :=
  if portfolio_values.length < 2 then EF.fin 0
  else
    let vals := bfill (ffill portfolio_values)
    let cumulative_max := cummax vals
    let drawdowns := List.zipWith (fun v m => (v.sub m).div m) vals cumulative_max
    let max_drawdown := seriesMin drawdowns
    if max_drawdown.isna then EF.fin 0 else max_drawdown.abs

/-- Embedding of `calculate_sortino_ratio` (`metrics.py` lines 60–87).  Note
the `np.inf` sentinel on line 81 when there are no downside observations (or
their standard deviation is 0) and the mean excess return is positive. -/
def calculate_sortino_ratio (returns : List EF) (risk_free_rate : ℝ)
    (periods_per_year : ℕ) (target_return : ℝ) : EF :=
  if returns.isEmpty then EF.fin 0
  else
    let excess_returns :=
      returns.map (fun r => r.sub (EF.fin (target_return / periods_per_year)))
    let downside_returns := excess_returns.filter (fun r => r.ltb (EF.fin 0))
    if downside_returns.isEmpty ∨ (stdE downside_returns).beq (EF.fin 0) then
      (if (EF.fin 0).ltb (meanE excess_returns) then EF.inf else EF.fin 0)
    else
      let downside_deviation := stdE downside_returns
      (((meanE returns).sub
          (EF.fin (risk_free_rate / periods_per_year))).div
        downside_deviation).mul (EF.fin (Real.sqrt periods_per_year))

/-- Embedding of `calculate_cagr` (`metrics.py` lines 89–124).  The year
count is wall-clock: the difference of the first and last index timestamps
in seconds, divided by `365.25 * 24 * 60 * 60` (lines 110–111).  The
`periods_per_year` parameter is accepted but never used, exactly as in the
source. -/
def calculate_cagr (portfolio_values : List (ℤ × EF))
    (periods_per_year : ℕ) : EF :=
  if portfolio_values.length < 2 then EF.fin 0
  else
    let vals := bfill (ffill (portfolio_values.map Prod.snd))
    let start_value := vals.headI
    let end_value := vals.getLastD EF.nan
    let time_diff : ℝ :=
      (((portfolio_values.getLastD (0, EF.nan)).1
        - (portfolio_values.headI).1 : ℤ) : ℝ)
    let years : ℝ := time_diff / (365.25 * 24 * 60 * 60)
    if start_value.leb (EF.fin 0) ∨ years ≤ 0 then EF.fin 0
    else
      let cagr := ((end_value.div start_value).powR (1 / years)).sub (EF.fin 1)
      if cagr.isna ∨ cagr.isinf then EF.fin 0 else cagr

/-- The bar-count-based CAGR that claim C2 (and spec §4.8) states:
`(end/start)^(1/years) - 1` with `years = num_points / periods_per_year`.
Written from the claim's words, for comparison with `calculate_cagr`,
which is embedded from the source and uses wall-clock years instead. -/
def specCagrBarCount (portfolio_values : List (ℤ × EF))
    (periods_per_year : ℕ) : EF :=
  let vals := portfolio_values.map Prod.snd
  let years : ℝ := (portfolio_values.length : ℝ) / periods_per_year
  (((vals.getLastD EF.nan).div vals.headI).powR (1 / years)).sub (EF.fin 1)

/-- The `total_return` computation inlined in `calculate_metrics`
(`metrics.py` line 155): `iloc[-1]/iloc[0] - 1` on the filled values, with
no NaN/Inf check. -/
def metricsTotalReturn (vals : List EF) : EF :=
  ((vals.getLastD EF.nan).div vals.headI).sub (EF.fin 1)

/-- The annualised-volatility computation inlined in `calculate_metrics`
(`metrics.py` lines 158–160), including its NaN/Inf-to-0 coercion. -/
def metricsVolatility (returns : List EF) (periods_per_year : ℕ) : EF :=
  let volatility := (stdE returns).mul (EF.fin (Real.sqrt periods_per_year))
  if volatility.isna ∨ volatility.isinf then EF.fin 0 else volatility

/-- The Sortino computation inlined in `calculate_metrics` (`metrics.py`
lines 167–177).  Unlike the standalone `calculate_sortino_ratio`, its
no-downside positive-mean sentinel is the finite constant `100.0`
(line 177), and the computed branch is NaN/Inf-coerced to 0. -/
def metricsSortino (returns : List EF) (risk_free_rate : ℝ)
    (periods_per_year : ℕ) : EF :=
  let downside_returns := returns.filter (fun r => r.ltb (EF.fin 0))
  if ¬downside_returns.isEmpty ∧ (EF.fin 0).ltb (stdE downside_returns) then
    let sortino := (((meanE returns).sub
        (EF.fin (risk_free_rate / periods_per_year))).div
      (stdE downside_returns)).mul (EF.fin (Real.sqrt periods_per_year))
    if sortino.isna ∨ sortino.isinf then EF.fin 0 else sortino
  else
    (if (meanE returns).leb (EF.fin 0) then EF.fin 0 else EF.fin 100)

/-- Embedding of `calculate_metrics` (`metrics.py` lines 126–187).  Returns
the metrics dictionary as an ordered key/value list with exactly the six
keys of the source literal. -/
def calculate_metrics (portfolio_values : List (ℤ × EF))
    (risk_free_rate : ℝ) (periods_per_year : ℕ) : List (String × EF) :=
  if portfolio_values.length < 2 then
    [("cagr", EF.fin 0), ("sharpe_ratio", EF.fin 0),
     ("max_drawdown", EF.fin 0), ("sortino_ratio", EF.fin 0),
     ("total_return", EF.fin 0), ("volatility", EF.fin 0)]
  else
    let filled := fillSeries portfolio_values
    let vals := filled.map Prod.snd
    let returns := fillna0 (pctChange vals)
    [("cagr", calculate_cagr filled periods_per_year),
     ("sharpe_ratio", calculate_sharpe_ratio returns risk_free_rate
        periods_per_year),
     ("max_drawdown", calculate_max_drawdown vals),
     ("sortino_ratio", metricsSortino returns risk_free_rate periods_per_year),
     ("total_return", metricsTotalReturn vals),
     ("volatility", metricsVolatility returns periods_per_year)]

/-! ### Data generators, `src/data_generators/`

Randomness model.  Every concrete generator consumes draws from numpy's
global random stream, which `BaseDataGenerator.__init__` reseeds with
`np.random.seed(self.seed)` (`base.py` line 20).  A generator run is
modelled as a pure function of an `Oracle`: a bundle of streams supplying
the successive draws of each kind.  Quantifying over all oracles covers
every realisable draw sequence; `uniform` draws carry their guaranteed
half-open range as bundled proofs. -/

/-- Streams of pseudo-random draws consumed by one generator run.
`z`, `z2`, `z3` model successive `np.random.normal()` draws (arbitrary
reals; three streams stand for disjoint segments of the single global
stream), `zvol` the normals inside `np.random.lognormal(8, 1)`, `gap`,
`u1`, `u2` unit draws underlying `np.random.uniform(a, b) = a + (b-a)·u`,
`e1`, `e2`, `e3` further unit-interval-free real draws used by the
extreme-event generator's Bernoulli checks and intensities, `nint` the
draws underlying `np.random.randint`, and `choice` the indices drawn by
`np.random.choice`. -/
structure Oracle where
  z : ℕ → ℝ
  z2 : ℕ → ℝ
  z3 : ℕ → ℝ
  zvol : ℕ → ℝ
  gap : ℕ → ℝ
  u1 : ℕ → ℝ
  u2 : ℕ → ℝ
  e1 : ℕ → ℝ
  e2 : ℕ → ℝ
  e3 : ℕ → ℝ
  nint : ℕ → ℕ
  choice : ℕ → ℕ
  gap_nonneg : ∀ k, 0 ≤ gap k
  gap_lt_one : ∀ k, gap k < 1
  u1_nonneg : ∀ k, 0 ≤ u1 k
  u1_lt_one : ∀ k, u1 k < 1
  u2_nonneg : ∀ k, 0 ≤ u2 k
  u2_lt_one : ∀ k, u2 k < 1

/-- An oracle whose every draw is zero; used to instantiate theorems at a
concrete realisation. -/
def zeroOracle : Oracle where
  z := fun _ => 0
  z2 := fun _ => 0
  z3 := fun _ => 0
  zvol := fun _ => 0
  gap := fun _ => 0
  u1 := fun _ => 0
  u2 := fun _ => 0
  e1 := fun _ => 0
  e2 := fun _ => 0
  e3 := fun _ => 0
  nint := fun _ => 0
  choice := fun _ => 0
  gap_nonneg := fun _ => le_refl 0
  gap_lt_one := fun _ => one_pos
  u1_nonneg := fun _ => le_refl 0
  u1_lt_one := fun _ => one_pos
  u2_nonneg := fun _ => le_refl 0
  u2_lt_one := fun _ => one_pos

/-- The zero oracle with the categorical-draw stream fixed at 1: a
realisation in which every `np.random.choice` transition selects state 1. -/
def oneChoiceOracle : Oracle := { zeroOracle with choice := fun _ => 1 }

/-- `np.random.uniform(a, b)` realised from a unit draw `u ∈ [0, 1)`. -/
def uniform (a b u : ℝ) : ℝ := a + (b - a) * u

/-- `np.random.randint(lo, hi)` realised from a natural draw: a value in
`[lo, hi)`. -/
def randint (lo hi : ℕ) (n : ℕ) : ℤ := (lo + n % (hi - lo) : ℕ)

/-- Python `int(x)` / numpy `astype(int)`: truncation toward zero. -/
def pyInt (x : ℝ) : ℤ := if 0 ≤ x then ⌊x⌋ else ⌈x⌉

/-- One OHLCV bar of a generated frame. -/
structure Bar where
  open_ : ℝ
  high : ℝ
  low : ℝ
  close : ℝ
  volume : ℤ

instance : Inhabited Bar := ⟨⟨0, 0, 0, 0, 0⟩⟩

/-- The invariant claimed for every generated bar (spec §3, §8):
`low ≤ min(open, close) ≤ max(open, close) ≤ high`, `low > 0`,
`volume ≥ 0`. -/
def BarOk (b : Bar) : Prop :=
  b.low ≤ min b.open_ b.close ∧ max b.open_ b.close ≤ b.high ∧
    0 < b.low ∧ 0 ≤ b.volume

/-- The datetime index of a generated frame, kept symbolically: either a
`pd.date_range(start, periods, freq=code)` (`'B'`, `'H'` or `'T'`) or a
fixed-step list comprehension `[start + i*step for i in range(periods)]`
with `step` in seconds. -/
inductive DateSpec : Type
  | byFreq (code : String) (periods : ℕ) : DateSpec
  | byStep (stepSeconds : ℤ) (periods : ℕ) : DateSpec

/-- A generated data frame: its datetime index (symbolic) and its rows. -/
structure Frame where
  dates : DateSpec
  bars : List Bar

/-- The frequency-string mapping shared by `monte_carlo.py` lines 52–64,
`multi_asset_generator.py` lines 72–84 and `stress_test_generator.py`
lines 270–278: `'D' ↦ 'B'`, `'H' ↦ 'H'`, `'M' ↦ 'T'`, anything else
falls back to `'B'` (daily) with no error and no log. -/
def freqStr (freq : String) : String :=
  if freq = "D" then "B"
  else if freq = "H" then "H"
  else if freq = "M" then "T"
  else "B"

/-- The time-delta mapping (in seconds) shared by `regime.py` lines 82–90,
`garch.py` lines 73–81 and `extreme.py` lines 68–76: day, hour or minute,
anything else falls back to one day with no error and no log. -/
def timeDelta (freq : String) : ℤ :=
  if freq = "D" then 86400
  else if freq = "H" then 3600
  else if freq = "M" then 60
  else 86400

/-- Model of assigning the OHLCV column lists to
`pd.DataFrame(index=dates)`: pandas raises `ValueError` if a column's
length differs from the index length (this is what actually happens for
`length = 0` configurations — there is no explicit length validation and
no `ConfigurationError` anywhere in the package). -/
def mkFrame (dates : DateSpec) (nDates : ℕ) (opens highs lows closes : List ℝ)
    (volumes : List ℤ) : Except String Frame :=
  if opens.length = nDates ∧ highs.length = nDates ∧ lows.length = nDates ∧
      closes.length = nDates ∧ volumes.length = nDates then
    Except.ok ⟨dates,
      (List.zip opens (List.zip highs (List.zip lows (List.zip closes
        volumes)))).map
        (fun q => ⟨q.1, q.2.1, q.2.2.1, q.2.2.2.1, q.2.2.2.2⟩)⟩
  else Except.error "ValueError: Length of values does not match length of index"

/-- A Python price loop of the shape `prices = [start]; for k in
range(1, n): prices.append(step prices[-1] k)`: `steps` further elements
after `start`, the draw index starting at `i`.  The produced list has
`steps + 1` elements. -/
def walk (step : ℝ → ℕ → ℝ) (start : ℝ) (i : ℕ) : ℕ → List ℝ
  | 0 => [start]
  | Nat.succ k => start :: walk step (step start i) (i + 1) k

/-- The GBM close-price loop shared by `monte_carlo.py` lines 44–49 and the
normal phases of `stress_test_generator.py`:
`price = prev * exp(mu + sigma * z)` (with `dt = 1`).  `n` is the Python
`range(1, n)` bound, so the list has `max(1, n)` elements. -/
def gbmCloses (mu sigma : ℝ) (z : ℕ → ℝ) (start : ℝ) (n : ℤ) : List ℝ :=
  walk (fun p k => p * Real.exp (mu + sigma * z k)) start 1 (n - 1).toNat

/-- The open-price synthesis shared by `monte_carlo.py` lines 78–90,
`stress_test_generator.py` lines 200–211 and `multi_asset_generator.py`
lines 118–130: the first open equals the first close, later opens are the
previous close times `1 + uniform(-sigma/2, sigma/2)`. -/
def synthOpens (sigma : ℝ) (gapU : ℕ → ℝ) (prices : List ℝ) : List ℝ :=
  match prices with
  | [] => []
  | p :: _ =>
      p :: prices.dropLast.enum.map
        (fun q => q.2 * (1 + uniform (-(sigma / 2)) (sigma / 2) (gapU (q.1 + 1))))

/-- The per-bar high/low computation shared by `monte_carlo.py` lines
92–112, `stress_test_generator.py` lines 213–235 and
`multi_asset_generator.py` lines 132–152, with the drawn unit values
passed in: raw high/low around open `o` and close `c`, then the final
clamps `low = max(low, 0.01)`, `high = max(high, open, close)`,
`low = min(low, open, close)`.  Returns (high, low). -/
def hlPair (sigma u1v u2v o c : ℝ) : ℝ × ℝ :=
  let price_range := |o - c|
  let daily_volatility := max price_range (c * sigma)
  let hl : ℝ × ℝ :=
    if o ≤ c then
      (c + uniform 0 daily_volatility u1v,
       o - uniform 0 (daily_volatility / 2) u2v)
    else
      (o + uniform 0 (daily_volatility / 2) u1v,
       c - uniform 0 daily_volatility u2v)
  let low := max hl.2 0.01
  let high := max hl.1 (max o c)
  (high, min low (min o c))

/-- The high/low synthesis loop shared by `monte_carlo.py` lines 92–112,
`stress_test_generator.py` lines 213–235 and `multi_asset_generator.py`
lines 132–152: `hlPair` applied bar by bar. -/
def synthHL (sigma : ℝ) (u1 u2 : ℕ → ℝ) (opens closes : List ℝ) :
    List (ℝ × ℝ) :=
  (opens.zip closes).enum.map (fun q =>
    hlPair sigma (u1 q.1) (u2 q.1) q.2.1 q.2.2)

/-- The lognormal base-volume draws `np.random.lognormal(mean=8, sigma=1)`
(`monte_carlo.py` line 120, `stress_test_generator.py` line 297,
`multi_asset_generator.py` line 155): each draw is `exp(8 + z)`. -/
def volumeBase (zv : ℕ → ℝ) (n : ℕ) : List ℝ :=
  (List.range n).map (fun k => Real.exp (8 + zv k))

/-- The AR(1)-style volume smoothing `v[i] = 0.6*v[i-1] + 0.4*base[i]` with
`v[0] = base[0]` (`monte_carlo.py` lines 123–127). -/
def arSmooth : List ℝ → List ℝ
  | [] => []
  | b :: bs => arSmoothGo b bs
where
  arSmoothGo (prev : ℝ) : List ℝ → List ℝ
    | [] => [prev]
    | b :: bs => prev :: arSmoothGo (0.6 * prev + 0.4 * b) bs

/-- The per-bar relative price changes `price_changes[0] = 0`,
`price_changes[1:] = |np.diff(prices)| / prices[:-1]`
(`monte_carlo.py` lines 130–131). -/
def priceChanges : List ℝ → List ℝ
  | [] => []
  | c :: cs => 0 :: (List.zip (c :: cs) cs).map (fun q => |q.2 - q.1| / q.1)

/-- The volume synthesis of `monte_carlo.py` lines 119–136 (also
`multi_asset_generator.py` lines 154–173): smoothed lognormal base volume
times `1 + 5 * price_change ** 0.5`, truncated to int.  (`x ** 0.5` on a
nonnegative float equals `Real.sqrt x`.) -/
def mcVolumes (zv : ℕ → ℝ) (closes : List ℝ) : List ℤ :=
  (List.zip (arSmooth (volumeBase zv closes.length)) (priceChanges closes)).map
    (fun q => pyInt (q.1 * (1 + 5 * Real.sqrt q.2)))

/-- The volume synthesis of `stress_test_generator.py` lines 296–313: the
same smoothed lognormal base, but with factor `1 + 10 * price_change`
(linear, stronger coupling). -/
def stressVolumes (zv : ℕ → ℝ) (closes : List ℝ) : List ℤ :=
  (List.zip (arSmooth (volumeBase zv closes.length)) (priceChanges closes)).map
    (fun q => pyInt (q.1 * (1 + 10 * q.2)))

/-- Embedding of `MonteCarloGenerator.generate` (`monte_carlo.py` lines
26–139).  `base_close` is the last close of the optional `base_data`
(`base_data['close'].iloc[-1]`, read-only); without it the start price is
the default `100.0`. -/
def monteCarloGenerate (length : ℕ) (frequency : String) (mu sigma : ℝ)
    (o : Oracle) (base_close : Option ℝ) : Except String Frame :=
  let start_price := base_close.getD 100
  let prices := gbmCloses mu sigma o.z start_price (length : ℤ)
  let opens := synthOpens sigma o.gap prices
  let hls := synthHL sigma o.u1 o.u2 opens prices
  mkFrame (DateSpec.byFreq (freqStr frequency) length) length opens
    (hls.map Prod.fst) (hls.map Prod.snd) prices (mcVolumes o.zvol prices)

/-- The GARCH(1,1) recursion of `garch.py` lines 60–70: the pair
(price, volatility) after `t` steps.  `volatility[0]` is the long-run value
`sqrt(omega/(1-alpha-beta))` when `1-alpha-beta > 0`, else `sqrt(omega)`;
each step draws `r = volatility * z` (model of `np.random.normal(0, v)`),
compounds the price by `exp(r)` and updates
`volatility = sqrt(omega + alpha*r^2 + beta*volatility^2)`. -/
def garchSeq (omega alpha beta : ℝ) (z : ℕ → ℝ) (p0 : ℝ) : ℕ → ℝ × ℝ
  | 0 => (p0, if 0 < 1 - alpha - beta then Real.sqrt (omega / (1 - alpha - beta))
          else Real.sqrt omega)
  | Nat.succ t =>
      let pv := garchSeq omega alpha beta z p0 t
      let r := pv.2 * z (t + 1)
      (pv.1 * Real.exp r, Real.sqrt (omega + alpha * r ^ 2 + beta * pv.2 ^ 2))

/-- Embedding of `GARCHGenerator.generate` (`garch.py` lines 30–98).  The
source sets open = high = low = close (line 91, a documented
simplification) and draws `np.random.randint(100, 1000)` volumes.  For
`length = 0` the source raises `IndexError` at the `volatility[0]`
assignment (line 61 follows `np.zeros(0)`). -/
def garchGenerate (length : ℕ) (frequency : String)
    (omega alpha beta initial_price : ℝ) (o : Oracle)
    (base_close : Option ℝ) : Except String Frame :=
  if length = 0 then Except.error "IndexError: index 0 is out of bounds"
  else
    let p0 := base_close.getD initial_price
    Except.ok ⟨DateSpec.byStep (timeDelta frequency) length,
      (List.range length).map (fun t =>
        let p := (garchSeq omega alpha beta o.z p0 t).1
        ⟨p, p, p, p, randint 100 1000 (o.nint t)⟩)⟩

/-- The regime-switching chain of `regime.py` lines 50–79: the pair
(price, current_state) at the end of loop iteration `t`.  The state starts
at 0; iteration `t ≥ 1` draws the bar-`t` return from the Gaussian of the
state reached after iteration `t-1`, then transitions.  The categorical
draw `np.random.choice(states, p=transition_matrix[s])` is modelled as an
arbitrary oracle-supplied index reduced mod `states`; theorems quantifying
over oracles therefore cover every realisable transition sequence. -/
def regimeSeq (regime_params : List (ℝ × ℝ)) (states : ℕ) (z : ℕ → ℝ)
    (choice : ℕ → ℕ) (p0 : ℝ) : ℕ → ℝ × ℕ
  | 0 => (p0, 0)
  | Nat.succ t =>
      let ps := regimeSeq regime_params states z choice p0 t
      let pr := regime_params.getD ps.2 (0, 0)
      (ps.1 * Real.exp (pr.1 + pr.2 * z (t + 1)), choice (t + 1) % states)

/-- Embedding of `RegimeSwitchingGenerator.generate` (`regime.py` lines
40–112).  Returns the frame together with the `regime` column (line 109):
`regimes[t]` is the value of `current_state` after iteration `t`, i.e. the
post-transition state.  High/low are regime-scaled noise around the close
and then clamped with open/close (lines 101–106); open equals close
(lines 100, 103).  `length = 0` raises `IndexError` at `prices[0] = ...`
(line 55/60). -/
def regimeGenerate (length : ℕ) (frequency : String) (states : ℕ)
    (regime_params : List (ℝ × ℝ)) (initial_price : ℝ) (o : Oracle)
    (base_close : Option ℝ) : Except String (Frame × List ℕ) :=
  if length = 0 then Except.error "IndexError: index 0 is out of bounds"
  else
    let p0 := base_close.getD initial_price
    let seqAt := fun t => regimeSeq regime_params states o.z o.choice p0 t
    let regimes := (List.range length).map (fun t => (seqAt t).2)
    Except.ok (⟨DateSpec.byStep (timeDelta frequency) length,
      (List.range length).map (fun t =>
        let p := (seqAt t).1
        let sigma_reg := (regime_params.getD (seqAt t).2 (0, 0)).2
        let high_raw := p * (1 + uniform 0 (sigma_reg / 2) (o.u1 t))
        let low_raw := p * (1 - uniform 0 (sigma_reg / 2) (o.u2 t))
        ⟨p, max high_raw p, min low_raw p, p, randint 100 1000 (o.nint t)⟩)⟩,
      regimes)

/-- Embedding of `ExtremeEventGenerator.generate` (`extreme.py` lines
25–97).  The base path multiplies by `1 + np.random.normal(0, 0.01)` each
bar; then every bar is independently hit by a crash (when `e1 < p_crash`)
or else possibly a surge (when `e3 < p_surge`); both intensities consume a
`np.random.rand()` draw (the two branches are exclusive, so one stream
`e2` models both).  Prices are then floored at `0.01` (line 65).  `high`
and `low` add ±`uniform(0, 0.02)` noise and are clamped with open = close
(lines 86–92). -/
def extremeGenerate (length : ℕ) (frequency : String)
    (crash_probability crash_intensity surge_probability surge_intensity : ℝ)
    (o : Oracle) (base_close : Option ℝ) : Except String Frame :=
  let start := base_close.getD 100
  let basePrices := walk (fun p k => p * (1 + 0.01 * o.z k)) start 1
    ((length : ℤ) - 1).toNat
  let shocked := basePrices.enum.map (fun q =>
    if o.e1 q.1 < crash_probability then
      q.2 * (1 - crash_intensity * o.e2 q.1)
    else if o.e3 q.1 < surge_probability then
      q.2 * (1 + surge_intensity * o.e2 q.1)
    else q.2)
  let prices := shocked.map (fun p => max 0.01 p)
  let highs := prices.enum.map (fun q =>
    max (q.2 * (1 + uniform 0 0.02 (o.u1 q.1))) q.2)
  let lows := prices.enum.map (fun q =>
    min (q.2 * (1 - uniform 0 0.02 (o.u2 q.1))) q.2)
  let volumes := (List.range prices.length).map
    (fun t => randint 100 10000 (o.nint t))
  mkFrame (DateSpec.byStep (timeDelta frequency) length) length prices highs
    lows prices volumes

/-- Embedding of `MultiAssetGenerator.generate` (`multi_asset_generator.py`
lines 51–176), one frame of column groups per asset.  The constructor
(lines 42–49) replaces `sigmas`/`mus` lists of the wrong length by the
defaults.  `corr j i` supplies entry `correlated_random[j, i]` of
`uncorrelated_random @ L.T` directly (the Cholesky factor `L` of the
validated correlation matrix is not reconstructed; quantifying over `corr`
covers every realisable correlated-shock matrix).  Each asset consumes its
own oracle `oa i`, standing for its segment of the global stream. -/
def multiAssetGenerate (length : ℕ) (frequency : String) (num_assets : ℕ)
    (mus sigmas : List ℝ) (corr : ℕ → ℕ → ℝ) (oa : ℕ → Oracle)
    (base_closes : List (Option ℝ)) : Except String (List Frame) :=
  let mus' := if mus.length = num_assets then mus
    else List.replicate num_assets 0.0001
  let sigmas' := if sigmas.length = num_assets then sigmas
    else List.replicate num_assets 0.01
  (List.range num_assets).mapM (fun i =>
    let mu := mus'.getD i 0.0001
    let sigma := sigmas'.getD i 0.01
    let start := ((base_closes.getD i none).getD 100)
    let prices := walk (fun p j => p * Real.exp (mu + sigma * corr j i))
      start 1 ((length : ℤ) - 1).toNat
    let opens := synthOpens sigma (oa i).gap prices
    let hls := synthHL sigma (oa i).u1 (oa i).u2 opens prices
    mkFrame (DateSpec.byFreq (freqStr frequency) length) length opens
      (hls.map Prod.fst) (hls.map Prod.snd) prices
      (mcVolumes (oa i).zvol prices))

/-- Embedding of `StressTestGenerator._generate_crash`
(`stress_test_generator.py` lines 47–100), close prices only (OHLC/volume
synthesis happens in `stressGenerate`).  Phase lengths are reallocated to
thirds when `length - duration - recovery < 10` (lines 53–56), preserving
the total.  When the (possibly reallocated) crash duration is 0, the
source raises `IndexError` at `prices_crash[-1]` (line 81). -/
def stressCrash (length crash_duration crash_recovery : ℕ)
    (crash_intensity mu sigma : ℝ) (o : Oracle) (start_price : ℝ) :
    Except String (List ℝ) :=
  let nd0 : ℤ := (length : ℤ) - crash_duration - crash_recovery
  let nd : ℤ := if nd0 < 10 then (length : ℤ) / 3 else nd0
  let cd : ℤ := if nd0 < 10 then (length : ℤ) / 3 else (crash_duration : ℤ)
  let cr : ℤ := if nd0 < 10 then (length : ℤ) - (length : ℤ) / 3 - (length : ℤ) / 3
    else (crash_recovery : ℤ)
  let prices_normal := gbmCloses mu sigma o.z start_price nd
  let crash_start := prices_normal.getLastD 0
  let crash_end := crash_start * (1 - crash_intensity)
  let prices_crash := (List.range cd.toNat).map (fun (i : ℕ) =>
    Real.exp (Real.log crash_start * (1 - ((i : ℝ) / (cd : ℝ)) ^ 2)
      + Real.log crash_end * ((i : ℝ) / (cd : ℝ)) ^ 2
      + sigma * 1.5 * o.z2 i))
  if prices_crash.isEmpty then
    Except.error "IndexError: list index out of range"
  else
    let recovery_start := prices_crash.getLastD 0
    let recovery_target := crash_start * 0.9
    let prices_recovery := (List.range cr.toNat).map (fun (i : ℕ) =>
      Real.exp (Real.log recovery_start * (1 - Real.sqrt ((i : ℝ) / (cr : ℝ)))
        + Real.log recovery_target * Real.sqrt ((i : ℝ) / (cr : ℝ))
        + sigma * 1.2 * o.z3 i))
    Except.ok (prices_normal ++ prices_crash ++ prices_recovery)

/-- Embedding of `StressTestGenerator._generate_rally`
(`stress_test_generator.py` lines 102–155), symmetric to the crash phase
with progress exponents 1.5 (up-move) and 0.8 (correction to 85% of the
peak), and the same thirds reallocation. -/
def stressRally (length rally_duration rally_correction : ℕ)
    (rally_intensity mu sigma : ℝ) (o : Oracle) (start_price : ℝ) :
    Except String (List ℝ) :=
  let nd0 : ℤ := (length : ℤ) - rally_duration - rally_correction
  let nd : ℤ := if nd0 < 10 then (length : ℤ) / 3 else nd0
  let rd : ℤ := if nd0 < 10 then (length : ℤ) / 3 else (rally_duration : ℤ)
  let rc : ℤ := if nd0 < 10 then (length : ℤ) - (length : ℤ) / 3 - (length : ℤ) / 3
    else (rally_correction : ℤ)
  let prices_normal := gbmCloses mu sigma o.z start_price nd
  let rally_start := prices_normal.getLastD 0
  let rally_end := rally_start * (1 + rally_intensity)
  let prices_rally := (List.range rd.toNat).map (fun (i : ℕ) =>
    Real.exp (Real.log rally_start * (1 - ((i : ℝ) / (rd : ℝ)) ^ (1.5 : ℝ))
      + Real.log rally_end * ((i : ℝ) / (rd : ℝ)) ^ (1.5 : ℝ)
      + sigma * 1.5 * o.z2 i))
  if prices_rally.isEmpty then
    Except.error "IndexError: list index out of range"
  else
    let correction_start := prices_rally.getLastD 0
    let correction_target := correction_start * 0.85
    let prices_correction := (List.range rc.toNat).map (fun (i : ℕ) =>
      Real.exp (Real.log correction_start
          * (1 - ((i : ℝ) / (rc : ℝ)) ^ (0.8 : ℝ))
        + Real.log correction_target * ((i : ℝ) / (rc : ℝ)) ^ (0.8 : ℝ)
        + sigma * 1.2 * o.z3 i))
    Except.ok (prices_normal ++ prices_rally ++ prices_correction)

/-- Embedding of `StressTestGenerator._generate_high_volatility`
(`stress_test_generator.py` lines 157–196), close prices only.  Note: this
phase composition has NO reallocation guard; each of the three Python
lists has `max(1, n)` elements, so the total can differ from `length`. -/
def stressVolPhase (length vol_duration : ℕ) (vol_multiplier mu sigma : ℝ)
    (o : Oracle) (start_price : ℝ) : List ℝ :=
  let bd : ℤ := Int.fdiv ((length : ℤ) - vol_duration) 2
  let ad : ℤ := (length : ℤ) - bd - vol_duration
  let before := gbmCloses mu sigma o.z start_price bd
  let volPhase := gbmCloses mu (sigma * vol_multiplier) o.z2
    (before.getLastD 0) (vol_duration : ℤ)
  let after := gbmCloses mu sigma o.z3 (volPhase.getLastD 0) ad
  before ++ volPhase ++ after

/-- The event dispatch of `StressTestGenerator.generate`
(`stress_test_generator.py` lines 252–267): close prices for the selected
scenario.  For `event_type` outside {crash, rally, volatility} the source
draws the event with `random.choice([...])` (line 261) — Python's `random`
module, which is never seeded anywhere in the repository (only
`np.random.seed` is called); the drawn index is the `pick` argument,
supplied by the caller from the Python-random state. -/
def stressPricesFor (length crash_duration crash_recovery rally_duration
      rally_correction vol_duration : ℕ)
    (crash_intensity rally_intensity vol_multiplier mu sigma : ℝ)
    (event_type : String) (pick : ℕ) (o : Oracle) (start_price : ℝ) :
    Except String (List ℝ) :=
  if event_type = "crash" then
    stressCrash length crash_duration crash_recovery crash_intensity mu
      sigma o start_price
  else if event_type = "rally" then
    stressRally length rally_duration rally_correction rally_intensity mu
      sigma o start_price
  else if event_type = "volatility" then
    Except.ok (stressVolPhase length vol_duration vol_multiplier mu sigma o
      start_price)
  else
    if pick % 3 = 0 then
      stressCrash length crash_duration crash_recovery crash_intensity mu
        sigma o start_price
    else if pick % 3 = 1 then
      stressRally length rally_duration rally_correction rally_intensity mu
        sigma o start_price
    else
      Except.ok (stressVolPhase length vol_duration vol_multiplier mu sigma
        o start_price)

/-- Embedding of `StressTestGenerator.generate` (`stress_test_generator.py`
lines 237–316).  The date range uses `periods=len(prices)` (line 287), so
the frame always has one row per close price, and OHLC/volume synthesis
reuses the shared helpers with the stronger volume coupling. -/
def stressGenerate (length crash_duration crash_recovery rally_duration
      rally_correction vol_duration : ℕ)
    (crash_intensity rally_intensity vol_multiplier mu sigma : ℝ)
    (event_type : String) (pick : ℕ) (frequency : String) (o : Oracle)
    (base_close : Option ℝ) : Except String Frame :=
  match stressPricesFor length crash_duration crash_recovery rally_duration
      rally_correction vol_duration crash_intensity rally_intensity
      vol_multiplier mu sigma event_type pick o (base_close.getD 100) with
  | Except.error e => Except.error e
  | Except.ok prices =>
      let opens := synthOpens sigma o.gap prices
      let hls := synthHL sigma o.u1 o.u2 opens prices
      mkFrame (DateSpec.byFreq (freqStr frequency) prices.length)
        prices.length opens (hls.map Prod.fst) (hls.map Prod.snd) prices
        (stressVolumes o.zvol prices)

/-- The rows of a generation result (empty for the error outcome); used to
state bar invariants uniformly over fallible generator runs. -/
def exceptBars (e : Except String Frame) : List Bar :=
  match e with
  | Except.ok f => f.bars
  | Except.error _ => []

/-- The rows of a regime-switching generation result. -/
def exceptBarsR (e : Except String (Frame × List ℕ)) : List Bar :=
  match e with
  | Except.ok q => q.1.bars
  | Except.error _ => []

/-- The `regime` column of a regime-switching generation result. -/
def regimeLabels (e : Except String (Frame × List ℕ)) : List ℕ :=
  match e with
  | Except.ok q => q.2
  | Except.error _ => []

/-- The per-asset frames of a multi-asset generation result. -/
def exceptFrames (e : Except String (List Frame)) : List Frame :=
  match e with
  | Except.ok fs => fs
  | Except.error _ => []

/-! ### The feed adapter `BaseDataGenerator.to_bt_feed`, `base.py` 35–75

A pandas DataFrame is modelled structurally: whether its index is a
`DatetimeIndex`, its row count, and its named columns.  Python passes the
DataFrame by reference and `to_bt_feed` applies in-place operations to it
(`set_index(..., inplace=True)`, `data[col] = ...`); the embedding returns
the state of the caller's DataFrame after the call, which is also exactly
the object wrapped by the returned `bt.feeds.PandasData`. -/

structure PyDF where
  isDatetimeIndex : Bool
  nrows : ℕ
  cols : List (String × List ℝ)

/-- One step of the required-column loop of `base.py` lines 59–69: if `col`
is missing, fill open/high/low from `close` when present, fill `volume`
with 0, otherwise raise `ValueError`. -/
def ensureCol (d : PyDF) (col : String) : Except String PyDF :=
  if (d.cols.lookup col).isSome then Except.ok d
  else if (col = "open" ∨ col = "high" ∨ col = "low") ∧
      (d.cols.lookup "close").isSome then
    Except.ok ⟨d.isDatetimeIndex, d.nrows,
      d.cols ++ [(col, (d.cols.lookup "close").getD [])]⟩
  else if col = "volume" then
    Except.ok ⟨d.isDatetimeIndex, d.nrows,
      d.cols ++ [("volume", List.replicate d.nrows 0)]⟩
  else Except.error ("ValueError: DataFrame is missing required column "
    ++ col)

/-- Embedding of `BaseDataGenerator.to_bt_feed` (`base.py` lines 35–75).
The result is the final state of the DataFrame that was passed in: the
datetime column moved into the index when needed (line 49,
`inplace=True`), any missing open/high/low/volume columns appended
(lines 59–69) and an `openinterest` column appended when absent
(lines 72–73) — all in place on the caller's object. -/
def to_bt_feed (data : PyDF) : Except String PyDF :=
  let d1E : Except String PyDF :=
    if data.isDatetimeIndex then Except.ok data
    else if (data.cols.lookup "datetime").isSome then
      Except.ok ⟨true, data.nrows,
        data.cols.filter (fun c => !(c.1 == "datetime"))⟩
    else Except.error
      "ValueError: DataFrame must contain a datetime column or DatetimeIndex"
  match d1E with
  | Except.error e => Except.error e
  | Except.ok d1 =>
      match ["open", "high", "low", "close", "volume"].foldlM ensureCol d1 with
      | Except.error e => Except.error e
      | Except.ok d2 =>
          if (d2.cols.lookup "openinterest").isSome then Except.ok d2
          else Except.ok ⟨d2.isDatetimeIndex, d2.nrows,
            d2.cols ++ [("openinterest", List.replicate d2.nrows 0)]⟩

/-! ### Seed determinism: the construct-then-generate pipelines

`BaseDataGenerator.__init__` calls `np.random.seed(self.seed)` (`base.py`
line 20), resetting numpy's global stream to a pure function of the seed.
A construct-then-generate run therefore consumes draws that depend only on
the seed, modelled by an entropy table `ent : ℕ → Oracle` mapping each
seed to the draw streams that follow the reseed.  Python's separate
`random` module stream is NEVER reseeded anywhere in the repository; its
state is threaded explicitly (`pyPos` consumption position into a table
`pyEnt`). -/

structure PRand where
  npSeed : ℕ
  pyPos : ℕ

/-- Construct a `MonteCarloGenerator` and call `generate` once: the reseed
makes the result depend only on the configuration. -/
def mcPipeline (ent : ℕ → Oracle) (length : ℕ) (frequency : String)
    (mu sigma : ℝ) (seed : ℕ) (base_close : Option ℝ) (g : PRand) :
    Except String Frame × PRand :=
  (monteCarloGenerate length frequency mu sigma (ent seed) base_close,
    ⟨seed, g.pyPos⟩)

/-- Construct a `GARCHGenerator` and call `generate` once. -/
def garchPipeline (ent : ℕ → Oracle) (length : ℕ) (frequency : String)
    (omega alpha beta initial_price : ℝ) (seed : ℕ) (base_close : Option ℝ)
    (g : PRand) : Except String Frame × PRand :=
  (garchGenerate length frequency omega alpha beta initial_price (ent seed)
    base_close, ⟨seed, g.pyPos⟩)

/-- Construct a `RegimeSwitchingGenerator` and call `generate` once. -/
def regimePipeline (ent : ℕ → Oracle) (length : ℕ) (frequency : String)
    (states : ℕ) (regime_params : List (ℝ × ℝ)) (initial_price : ℝ)
    (seed : ℕ) (base_close : Option ℝ) (g : PRand) :
    Except String (Frame × List ℕ) × PRand :=
  (regimeGenerate length frequency states regime_params initial_price
    (ent seed) base_close, ⟨seed, g.pyPos⟩)

/-- Construct an `ExtremeEventGenerator` and call `generate` once. -/
def extremePipeline (ent : ℕ → Oracle) (length : ℕ) (frequency : String)
    (crash_probability crash_intensity surge_probability surge_intensity : ℝ)
    (seed : ℕ) (base_close : Option ℝ) (g : PRand) :
    Except String Frame × PRand :=
  (extremeGenerate length frequency crash_probability crash_intensity
    surge_probability surge_intensity (ent seed) base_close, ⟨seed, g.pyPos⟩)

/-- Construct a `MultiAssetGenerator` and call `generate` once. -/
def multiAssetPipeline (ent : ℕ → ℕ → Oracle) (length : ℕ)
    (frequency : String) (num_assets : ℕ) (mus sigmas : List ℝ)
    (corr : ℕ → ℕ → ℝ) (seed : ℕ) (base_closes : List (Option ℝ))
    (g : PRand) : Except String (List Frame) × PRand :=
  (multiAssetGenerate length frequency num_assets mus sigmas corr (ent seed)
    base_closes, ⟨seed, g.pyPos⟩)

/-- Construct a `StressTestGenerator` and call `generate` once.  For the
three explicit event types the Python-random stream is untouched; for any
other `event_type` (the `random` branch) the event is drawn from the
un-reseeded Python-random stream at the current consumption position,
which then advances — this is the only generator output that depends on
the pre-existing global state `g` rather than on the seed alone. -/
def stressPipeline (ent : ℕ → Oracle) (pyEnt : ℕ → ℕ)
    (length crash_duration crash_recovery rally_duration rally_correction
      vol_duration : ℕ)
    (crash_intensity rally_intensity vol_multiplier mu sigma : ℝ)
    (event_type : String) (frequency : String) (seed : ℕ)
    (base_close : Option ℝ) (g : PRand) : Except String Frame × PRand :=
  if event_type = "crash" ∨ event_type = "rally" ∨
      event_type = "volatility" then
    (stressGenerate length crash_duration crash_recovery rally_duration
      rally_correction vol_duration crash_intensity rally_intensity
      vol_multiplier mu sigma event_type 0 frequency (ent seed) base_close,
      ⟨seed, g.pyPos⟩)
  else
    (stressGenerate length crash_duration crash_recovery rally_duration
      rally_correction vol_duration crash_intensity rally_intensity
      vol_multiplier mu sigma event_type (pyEnt g.pyPos) frequency (ent seed)
      base_close, ⟨seed, g.pyPos + 1⟩)

/-! ## Theorems

Supporting lemmas first, then the claim theorems with their witnesses and
counterexamples. -/

namespace EF

theorem finite_fin (a : ℝ) : (fin a).Finite := ⟨rfl, rfl⟩

theorem finite_of_isna_isinf_false {x : EF} (h1 : x.isna = false)
    (h2 : x.isinf = false) : x.Finite := ⟨h1, h2⟩

@[simp] theorem isna_fin (a : ℝ) : (fin a).isna = false := rfl
@[simp] theorem isna_inf : (inf).isna = false := rfl
@[simp] theorem isna_ninf : (ninf).isna = false := rfl
@[simp] theorem isna_nan : (nan).isna = true := rfl
@[simp] theorem isinf_fin (a : ℝ) : (fin a).isinf = false := rfl
@[simp] theorem isinf_nan : (nan).isinf = false := rfl
@[simp] theorem isinf_inf : (inf).isinf = true := rfl
@[simp] theorem isinf_ninf : (ninf).isinf = true := rfl

@[simp] theorem ltb_fin_fin (a b : ℝ) : ltb (fin a) (fin b) = decide (a < b) := rfl
@[simp] theorem leb_fin_fin (a b : ℝ) : leb (fin a) (fin b) = decide (a ≤ b) := rfl
@[simp] theorem beq_fin_fin (a b : ℝ) : beq (fin a) (fin b) = decide (a = b) := rfl
@[simp] theorem ltb_nan_left (x : EF) : ltb nan x = false := by cases x <;> rfl
@[simp] theorem ltb_nan_right (x : EF) : ltb x nan = false := by cases x <;> rfl
@[simp] theorem leb_nan_left (x : EF) : leb nan x = false := by cases x <;> rfl
@[simp] theorem leb_nan_right (x : EF) : leb x nan = false := by cases x <;> rfl
@[simp] theorem beq_nan_left (x : EF) : beq nan x = false := by cases x <;> rfl
@[simp] theorem beq_nan_right (x : EF) : beq x nan = false := by cases x <;> rfl

@[simp] theorem add_fin_fin (a b : ℝ) : add (fin a) (fin b) = fin (a + b) := rfl
@[simp] theorem sub_fin_fin (a b : ℝ) : sub (fin a) (fin b) = fin (a - b) := by
  simp [sub, add, neg, sub_eq_add_neg]
@[simp] theorem mul_fin_fin (a b : ℝ) : mul (fin a) (fin b) = fin (a * b) := rfl
@[simp] theorem add_nan_left (x : EF) : add nan x = nan := by cases x <;> rfl
@[simp] theorem add_nan_right (x : EF) : add x nan = nan := by cases x <;> rfl
@[simp] theorem mul_nan_left (x : EF) : mul nan x = nan := by cases x <;> rfl
@[simp] theorem mul_nan_right (x : EF) : mul x nan = nan := by cases x <;> rfl
@[simp] theorem div_nan_left (x : EF) : div nan x = nan := by cases x <;> rfl
@[simp] theorem div_nan_right (x : EF) : div x nan = nan := by cases x <;> rfl
@[simp] theorem sub_nan_left (x : EF) : sub nan x = nan := by cases x <;> rfl
@[simp] theorem sub_nan_right (x : EF) : sub x nan = nan := by cases x <;> rfl

theorem div_fin_fin_of_ne (a b : ℝ) (h : b ≠ 0) :
    div (fin a) (fin b) = fin (a / b) := by
  simp [div, h]

theorem div_fin_zero_pos (a : ℝ) (h : 0 < a) : div (fin a) (fin 0) = inf := by
  simp [div, h]

theorem abs_isna (x : EF) : x.abs.isna = x.isna := by cases x <;> rfl

theorem finite_coerce (x : EF) :
    (if x.isna = true ∨ x.isinf = true then fin 0 else x).Finite := by
  cases x <;> simp [Finite, isna, isinf]

theorem sub_inf_fin (a : ℝ) : sub inf (fin a) = inf := rfl

theorem not_finite_inf : ¬ Finite inf := by simp [Finite, isinf]

end EF

/-- C1: for every portfolio-value series that is empty or has fewer than 2
points, `calculate_metrics` returns the dictionary with exactly the six keys
cagr, sharpe_ratio, max_drawdown, sortino_ratio, total_return, volatility,
each mapped to 0.0 (`metrics.py` lines 138–146); the embedding is a total
function, so no exception is raised on any well-formed series. -/
theorem calculate_metrics_degenerate (s : List (ℤ × EF)) (rf : ℝ) (p : ℕ)
    (h : s.length < 2) :
    calculate_metrics s rf p =
      [("cagr", EF.fin 0), ("sharpe_ratio", EF.fin 0),
       ("max_drawdown", EF.fin 0), ("sortino_ratio", EF.fin 0),
       ("total_return", EF.fin 0), ("volatility", EF.fin 0)] := by
  simp [calculate_metrics, h]

/-- Witness for C1: the empty series. -/
theorem calculate_metrics_degenerate_witness :
    ([] : List (ℤ × EF)).length < 2 ∧
      calculate_metrics ([] : List (ℤ × EF)) 0 252 =
        [("cagr", EF.fin 0), ("sharpe_ratio", EF.fin 0),
         ("max_drawdown", EF.fin 0), ("sortino_ratio", EF.fin 0),
         ("total_return", EF.fin 0), ("volatility", EF.fin 0)] :=
  ⟨by norm_num, calculate_metrics_degenerate [] 0 252 (by norm_num)⟩

theorem calculate_cagr_finite (s : List (ℤ × EF)) (p : ℕ) :
    (calculate_cagr s p).Finite := by
  simp only [calculate_cagr]
  split
  · exact EF.finite_fin 0
  · split
    · exact EF.finite_fin 0
    · exact EF.finite_coerce _

theorem metricsVolatility_finite (returns : List EF) (p : ℕ) :
    (metricsVolatility returns p).Finite := by
  simp only [metricsVolatility]
  exact EF.finite_coerce _

theorem metricsSortino_finite (returns : List EF) (rf : ℝ) (p : ℕ) :
    (metricsSortino returns rf p).Finite := by
  simp only [metricsSortino]
  split
  · exact EF.finite_coerce _
  · split
    · exact EF.finite_fin 0
    · exact EF.finite_fin 100

theorem calculate_max_drawdown_not_nan (vs : List EF) :
    (calculate_max_drawdown vs).isna = false := by
  simp only [calculate_max_drawdown]
  split
  · rfl
  · split
    · rfl
    · rename_i h
      rw [EF.abs_isna]
      exact Bool.not_eq_true _ ▸ Bool.of_not_eq_true h

/-- C3 (amended): in `calculate_metrics`, the NaN/Inf-to-0 coercion covers
the cagr, volatility and sortino_ratio entries (always finite) and the
max_drawdown entry (never NaN); the total_return and sharpe_ratio entries
are surfaced without any check and can be non-finite — see the
counterexample `calculate_metrics_total_return_inf`. -/
theorem calculate_metrics_coerced_entries (s : List (ℤ × EF)) (rf : ℝ)
    (p : ℕ) :
    ∀ kv ∈ calculate_metrics s rf p,
      (kv.1 = "cagr" → kv.2.Finite) ∧
      (kv.1 = "volatility" → kv.2.Finite) ∧
      (kv.1 = "sortino_ratio" → kv.2.Finite) ∧
      (kv.1 = "max_drawdown" → kv.2.isna = false) := by
  intro kv hkv
  unfold calculate_metrics at hkv
  by_cases hl : s.length < 2
  · rw [if_pos hl] at hkv
    simp only [List.mem_cons, List.mem_singleton, List.not_mem_nil,
      or_false] at hkv
    rcases hkv with rfl | rfl | rfl | rfl | rfl | rfl <;>
      exact ⟨fun _ => EF.finite_fin 0, fun _ => EF.finite_fin 0,
        fun _ => EF.finite_fin 0, fun _ => rfl⟩
  · rw [if_neg hl] at hkv
    simp only [List.mem_cons, List.mem_singleton, List.not_mem_nil,
      or_false] at hkv
    rcases hkv with rfl | rfl | rfl | rfl | rfl | rfl
    · exact ⟨fun _ => calculate_cagr_finite (fillSeries s) p,
        fun hk => by simp at hk, fun hk => by simp at hk,
        fun hk => by simp at hk⟩
    · exact ⟨fun hk => by simp at hk,
        fun hk => by simp at hk, fun hk => by simp at hk,
        fun hk => by simp at hk⟩
    · exact ⟨fun hk => by simp at hk,
        fun hk => by simp at hk, fun hk => by simp at hk,
        fun _ => calculate_max_drawdown_not_nan _⟩
    · exact ⟨fun hk => by simp at hk,
        fun hk => by simp at hk,
        fun _ => metricsSortino_finite
          (fillna0 (pctChange (List.map Prod.snd (fillSeries s)))) rf p,
        fun hk => by simp at hk⟩
    · exact ⟨fun hk => by simp at hk,
        fun hk => by simp at hk, fun hk => by simp at hk,
        fun hk => by simp at hk⟩
    · exact ⟨fun hk => by simp at hk,
        fun _ => metricsVolatility_finite
          (fillna0 (pctChange (List.map Prod.snd (fillSeries s)))) p,
        fun hk => by simp at hk, fun hk => by simp at hk⟩

/-- Witness for C3 (amended), at the empty series and the cagr entry. -/
theorem calculate_metrics_coerced_entries_witness :
    (("cagr", EF.fin 0) ∈ calculate_metrics ([] : List (ℤ × EF)) 0 252) ∧
      (EF.fin 0).Finite :=
  ⟨by simp [calculate_metrics], by
    have h : ("cagr", EF.fin 0) ∈ calculate_metrics ([] : List (ℤ × EF)) 0
        252 := by simp [calculate_metrics]
    exact (calculate_metrics_coerced_entries [] 0 252 _ h).1 rfl⟩

/-- Counterexample to C3 as stated: on the series with values `[0, 1]`
(already NaN-free, so forward/backward filling changes nothing), the
surfaced total_return is `1/0 - 1 = +inf` — `calculate_metrics` applies no
NaN/Inf check to total_return (`metrics.py` line 155 flows into the result
dictionary unchecked), so not every value of the returned dictionary is
finite. -/
theorem calculate_metrics_total_return_inf :
    ("total_return", EF.inf) ∈
      calculate_metrics [((0 : ℤ), EF.fin 0), ((86400 : ℤ), EF.fin 1)] 0
        252 ∧ ¬ EF.inf.Finite := by
  refine ⟨?_, EF.not_finite_inf⟩
  have hlen : ¬ ([((0 : ℤ), EF.fin 0), ((86400 : ℤ), EF.fin 1)].length < 2) :=
    by norm_num
  have hfill : fillSeries [((0 : ℤ), EF.fin 0), ((86400 : ℤ), EF.fin 1)] =
      [((0 : ℤ), EF.fin 0), ((86400 : ℤ), EF.fin 1)] := by
    simp [fillSeries, ffill, bfill, ffillGo]
  have htr : metricsTotalReturn
      (List.map Prod.snd [((0 : ℤ), EF.fin 0), ((86400 : ℤ), EF.fin 1)]) =
      EF.inf := by
    show metricsTotalReturn [EF.fin 0, EF.fin 1] = EF.inf
    unfold metricsTotalReturn
    rw [show ([EF.fin 0, EF.fin 1].getLastD EF.nan) = EF.fin 1 from rfl,
      show ([EF.fin 0, EF.fin 1].headI) = EF.fin 0 from rfl,
      EF.div_fin_zero_pos 1 one_pos, EF.sub_inf_fin]
  simp only [calculate_metrics]
  rw [if_neg hlen, hfill, htr]
  simp

theorem ffillGo_no_nan (prev : EF) (xs : List EF)
    (h : ∀ x ∈ xs, x.isna = false) : ffillGo prev xs = xs := by
  induction xs generalizing prev with
  | nil => rfl
  | cons x xs ih =>
      have hx := h x (List.mem_cons_self x xs)
      simp only [ffillGo, hx, Bool.false_eq_true, if_false]
      exact congrArg (x :: ·) (ih x (fun y hy => h y (List.mem_cons_of_mem _ hy)))

theorem fill_no_nan (xs : List EF) (h : ∀ x ∈ xs, x.isna = false) :
    bfill (ffill xs) = xs := by
  rw [ffill, ffillGo_no_nan _ _ h, bfill, ffillGo_no_nan _ _
    (fun y hy => h y (List.mem_reverse.mp hy)), List.reverse_reverse]

/-- C2 (amended): `calculate_cagr` uses the wall-clock year convention, not
the bar-count one: for every series with at least two points, positive
start value, nonnegative end value and increasing timestamps, it returns
`(end/start)^(1/years) - 1` where `years` is the elapsed index time in
seconds divided by `365.25*24*60*60` (`metrics.py` lines 110–118); the
`periods_per_year` argument plays no role. -/
theorem calculate_cagr_wall_clock (t0 t1 : ℤ) (v0 v1 : ℝ)
    (mid : List (ℤ × ℝ)) (p : ℕ) (hv0 : 0 < v0) (hv1 : 0 ≤ v1)
    (ht : t0 < t1) :
    calculate_cagr (((t0, v0) :: mid ++ [(t1, v1)]).map
        (fun q => (q.1, EF.fin q.2))) p =
      EF.fin ((v1 / v0) ^ ((31557600 : ℝ) / ((t1 - t0 : ℤ) : ℝ)) - 1) := by
  simp only [List.map_cons, List.map_append, List.map_singleton, List.map_nil]
  simp only [calculate_cagr]
  rw [if_neg (by simp [List.length_append])]
  have hvals : List.map Prod.snd
      ((t0, EF.fin v0) :: mid.map (fun q => (q.1, EF.fin q.2)) ++
        [(t1, EF.fin v1)]) =
      EF.fin v0 :: mid.map (fun q => EF.fin q.2) ++ [EF.fin v1] := by
    simp
  simp only [hvals]
  have hmem : ∀ x ∈ EF.fin v0 :: mid.map (fun q => EF.fin q.2) ++
      [EF.fin v1], x.isna = false := by
    intro x hx
    simp only [List.cons_append, List.mem_cons, List.mem_append,
      List.mem_map, List.mem_singleton, List.not_mem_nil, or_false] at hx
    rcases hx with rfl | ⟨a, _, rfl⟩ | rfl <;> rfl
  rw [fill_no_nan _ hmem]
  rw [List.getLastD_concat, List.getLastD_concat]
  rw [show (EF.fin v0 :: mid.map (fun q => EF.fin q.2) ++
    [EF.fin v1]).headI = EF.fin v0 from rfl]
  rw [show ((t0, EF.fin v0) :: mid.map (fun q => (q.1, EF.fin q.2)) ++
    [(t1, EF.fin v1)]).headI = (t0, EF.fin v0) from rfl]
  have hdt : (0 : ℝ) < ((t1 - t0 : ℤ) : ℝ) := by
    exact_mod_cast sub_pos.mpr ht
  have hyears : (0 : ℝ) < ((t1 - t0 : ℤ) : ℝ) / (365.25 * 24 * 60 * 60) := by
    positivity
  rw [if_neg (by
    simp only [EF.leb_fin_fin, decide_eq_true_eq, not_or, not_le]
    exact ⟨hv0, hyears⟩)]
  rw [EF.div_fin_fin_of_ne _ _ hv0.ne']
  have hbase : (0 : ℝ) ≤ v1 / v0 := div_nonneg hv1 hv0.le
  have hexp : (1 : ℝ) / (((t1 - t0 : ℤ) : ℝ) / (365.25 * 24 * 60 * 60)) =
      (31557600 : ℝ) / ((t1 - t0 : ℤ) : ℝ) := by
    rw [one_div_div]
    norm_num
  rw [show EF.powR (EF.fin (v1 / v0))
      ((1 : ℝ) / (((t1 - t0 : ℤ) : ℝ) / (365.25 * 24 * 60 * 60))) =
      EF.fin ((v1 / v0) ^ ((31557600 : ℝ) / ((t1 - t0 : ℤ) : ℝ))) from by
    simp only [EF.powR, if_pos hbase, hexp]]
  rw [EF.sub_fin_fin]
  rw [if_neg (by simp)]

/-- Witness for C2 (amended): a two-point series from value 100 to 400 over
two years (63115200 seconds). -/
theorem calculate_cagr_wall_clock_witness :
    (0 : ℝ) < 100 ∧ (0 : ℝ) ≤ 400 ∧ (0 : ℤ) < 63115200 ∧
      calculate_cagr (((0, (100 : ℝ)) :: ([] : List (ℤ × ℝ)) ++
          [((63115200 : ℤ), (400 : ℝ))]).map (fun q => (q.1, EF.fin q.2)))
        252 =
        EF.fin (((400 : ℝ) / 100) ^
          ((31557600 : ℝ) / (((63115200 : ℤ) - 0 : ℤ) : ℝ)) - 1) :=
  ⟨by norm_num, by norm_num, by norm_num,
    calculate_cagr_wall_clock 0 63115200 100 400 [] 252 (by norm_num)
      (by norm_num) (by norm_num)⟩

/-- Counterexample to C2 as stated: on the two-point series from 100 to 400
whose timestamps are exactly one year apart (31557600 seconds),
`calculate_cagr` returns `(400/100)^(1/1) - 1 = 3` (wall-clock years),
whereas the claimed bar-count convention
(`years = num_points/periods_per_year = 2/252`) would give
`4^126 - 1 ≠ 3`. -/
theorem calculate_cagr_not_bar_count :
    calculate_cagr [((0 : ℤ), EF.fin 100), ((31557600 : ℤ), EF.fin 400)]
        252 = EF.fin 3 ∧
      specCagrBarCount [((0 : ℤ), EF.fin 100), ((31557600 : ℤ), EF.fin 400)]
        252 = EF.fin ((4 : ℝ) ^ (126 : ℕ) - 1) ∧
      EF.fin 3 ≠ EF.fin ((4 : ℝ) ^ (126 : ℕ) - 1) := by
  refine ⟨?_, ?_, ?_⟩
  · have h := calculate_cagr_wall_clock 0 31557600 100 400 [] 252
      (by norm_num) (by norm_num) (by norm_num)
    simp only [List.nil_append, List.singleton_append, List.map_cons,
      List.map_singleton, List.map_nil] at h
    rw [h]
    have : ((400 : ℝ) / 100) ^ ((31557600 : ℝ) / (((31557600 : ℤ) -
        (0 : ℤ) : ℤ) : ℝ)) = 4 := by
      have h1 : ((31557600 : ℝ) / (((31557600 : ℤ) - (0 : ℤ) : ℤ) : ℝ)) =
          1 := by norm_num
      rw [h1, Real.rpow_one]
      norm_num
    rw [this]
    norm_num
  · simp only [specCagrBarCount]
    rw [show (List.map Prod.snd
        [((0 : ℤ), EF.fin 100), ((31557600 : ℤ), EF.fin 400)]) =
        [EF.fin 100, EF.fin 400] from rfl]
    rw [show ([EF.fin 100, EF.fin 400].getLastD EF.nan) = EF.fin 400 from
      rfl]
    rw [show ([EF.fin 100, EF.fin 400].headI) = EF.fin 100 from rfl]
    rw [EF.div_fin_fin_of_ne _ _ (by norm_num)]
    have h126 : (1 : ℝ) / (([((0 : ℤ), EF.fin 100),
        ((31557600 : ℤ), EF.fin 400)].length : ℝ) / ((252 : ℕ) : ℝ)) =
        (126 : ℝ) := by
      norm_num
    rw [h126]
    have hbase : (0 : ℝ) ≤ (400 : ℝ) / 100 := by norm_num
    rw [show EF.powR (EF.fin ((400 : ℝ) / 100)) (126 : ℝ) =
        EF.fin (((400 : ℝ) / 100) ^ ((126 : ℕ) : ℝ)) from by
      simp only [EF.powR, if_pos hbase]
      norm_num]
    rw [Real.rpow_natCast, EF.sub_fin_fin]
    norm_num
  · intro h
    have h3 := EF.fin.inj h
    have h4 : (3 : ℝ) < (4 : ℝ) ^ (126 : ℕ) - 1 := by
      have h5 : (4 : ℝ) ^ (2 : ℕ) ≤ (4 : ℝ) ^ (126 : ℕ) :=
        pow_le_pow_right₀ (by norm_num) (by norm_num)
      have h6 : ((4 : ℝ) ^ (2 : ℕ)) = 16 := by norm_num
      linarith
    linarith

/-- C8 (amended): the two Sortino computations use two different
no-downside sentinels.  When there are no downside observations and the
mean excess return is positive, the standalone `calculate_sortino_ratio`
returns `np.inf` (`metrics.py` line 81), while the Sortino value inside
`calculate_metrics` is the finite constant `100.0` (line 177) — the
sentinel is not consistent across the two. -/
theorem sortino_sentinels :
    (∀ (returns : List EF) (rf : ℝ) (p : ℕ) (tgt : ℝ),
      returns.isEmpty = false →
      ((returns.map (fun r => r.sub (EF.fin (tgt / p)))).filter
        (fun r => r.ltb (EF.fin 0))).isEmpty = true →
      (EF.fin 0).ltb (meanE (returns.map (fun r =>
        r.sub (EF.fin (tgt / p))))) = true →
      calculate_sortino_ratio returns rf p tgt = EF.inf) ∧
    (∀ (returns : List EF) (rf : ℝ) (p : ℕ),
      (returns.filter (fun r => r.ltb (EF.fin 0))).isEmpty = true →
      (meanE returns).leb (EF.fin 0) = false →
      metricsSortino returns rf p = EF.fin 100) := by
  constructor
  · intro returns rf p tgt hne hds hmean
    simp only [calculate_sortino_ratio, hne, Bool.false_eq_true, if_false]
    rw [if_pos (Or.inl hds), if_pos hmean]
  · intro returns rf p hds hm
    simp only [metricsSortino]
    rw [if_neg (by simp [hds]), if_neg (by simp [hm])]

/-- Witness for C8 (amended): a single positive return for the standalone
function, a flat-then-up return pair for the metrics-internal branch. -/
theorem sortino_sentinels_witness :
    calculate_sortino_ratio [EF.fin 0.05] 1 12 0 = EF.inf ∧
      metricsSortino [EF.fin 0, EF.fin 0.5] 1 12 = EF.fin 100 := by
  constructor
  · apply sortino_sentinels.1 [EF.fin 0.05] 1 12 0
    · rfl
    · norm_num [EF.sub_fin_fin, EF.ltb_fin_fin]
    · norm_num [meanE, EF.sub_fin_fin, EF.isna, EF.add_fin_fin,
        EF.div_fin_fin_of_ne _ _ (by norm_num : (1 : ℝ) ≠ 0),
        EF.ltb_fin_fin]
  · apply sortino_sentinels.2 [EF.fin 0, EF.fin 0.5] 1 12
    · norm_num [EF.ltb_fin_fin]
    · norm_num [meanE, EF.isna, EF.add_fin_fin,
        EF.div_fin_fin_of_ne _ _ (by norm_num : (2 : ℝ) ≠ 0),
        EF.leb_fin_fin]

/-- Counterexample to C8 as stated: on the all-positive returns
`[0.01, 0.02]`, `calculate_sortino_ratio` returns the sentinel `inf`,
while `calculate_metrics` on the rising series 100 → 200 → 400 (whose
filled returns `[0, 1, 1]` have no downside and positive mean) carries
sortino_ratio `100.0`; the two sentinels differ, so no one sentinel is
used consistently. -/
theorem sortino_sentinel_mismatch :
    calculate_sortino_ratio [EF.fin 0.01, EF.fin 0.02] 0 252 0 = EF.inf ∧
      ("sortino_ratio", EF.fin 100) ∈
        calculate_metrics [((0 : ℤ), EF.fin 100), ((86400 : ℤ), EF.fin 200),
          ((172800 : ℤ), EF.fin 400)] 0 252 ∧
      EF.inf ≠ EF.fin 100 := by
  refine ⟨?_, ?_, by intro h; cases h⟩
  · have h0 : ((0 : ℝ) / ((252 : ℕ) : ℝ)) = 0 := by norm_num
    simp only [calculate_sortino_ratio, List.isEmpty_cons,
      Bool.false_eq_true, if_false, h0, List.map_cons, List.map_nil,
      EF.sub_fin_fin, sub_zero]
    rw [if_pos (Or.inl (by norm_num [EF.ltb_fin_fin]))]
    rw [if_pos (by
      norm_num [meanE, EF.isna, EF.add_fin_fin, EF.ltb_fin_fin,
        EF.div_fin_fin_of_ne _ _ (by norm_num : (2 : ℝ) ≠ 0)])]
  · have hlen : ¬ ([((0 : ℤ), EF.fin 100), ((86400 : ℤ), EF.fin 200),
        ((172800 : ℤ), EF.fin 400)].length < 2) := by norm_num
    have hfill : fillSeries [((0 : ℤ), EF.fin 100),
        ((86400 : ℤ), EF.fin 200), ((172800 : ℤ), EF.fin 400)] =
        [((0 : ℤ), EF.fin 100), ((86400 : ℤ), EF.fin 200),
          ((172800 : ℤ), EF.fin 400)] := by
      simp [fillSeries, ffill, bfill, ffillGo]
    have hret : fillna0 (pctChange (List.map Prod.snd
        [((0 : ℤ), EF.fin 100), ((86400 : ℤ), EF.fin 200),
          ((172800 : ℤ), EF.fin 400)])) =
        [EF.fin 0, EF.fin 1, EF.fin 1] := by
      show fillna0 (pctChange [EF.fin 100, EF.fin 200, EF.fin 400]) = _
      rw [pctChange]
      rw [show pctChange.pctChangeGo (EF.fin 100) [EF.fin 200, EF.fin 400] =
        [((EF.fin 200).div (EF.fin 100)).sub (EF.fin 1),
         ((EF.fin 400).div (EF.fin 200)).sub (EF.fin 1)] from rfl]
      rw [EF.div_fin_fin_of_ne _ _ (by norm_num : (100 : ℝ) ≠ 0),
        EF.div_fin_fin_of_ne _ _ (by norm_num : (200 : ℝ) ≠ 0)]
      norm_num [fillna0, EF.isna, EF.sub_fin_fin]
    have hsort : metricsSortino [EF.fin 0, EF.fin 1, EF.fin 1] 0 252 =
        EF.fin 100 := by
      simp only [metricsSortino]
      rw [if_neg (by norm_num [EF.ltb_fin_fin])]
      rw [if_neg (by
        norm_num [meanE, EF.isna, EF.add_fin_fin, EF.leb_fin_fin,
          EF.div_fin_fin_of_ne _ _ (by norm_num : (3 : ℝ) ≠ 0)])]
    simp only [calculate_metrics]
    rw [if_neg hlen, hfill, hret, hsort]
    simp

/-! ### Length lemmas for the generators -/

theorem walk_length (f : ℝ → ℕ → ℝ) (start : ℝ) (i n : ℕ) :
    (walk f start i n).length = n + 1 := by
  induction n generalizing start i with
  | zero => rfl
  | succ k ih => simp [walk, ih]

theorem gbmCloses_length (mu sigma : ℝ) (z : ℕ → ℝ) (start : ℝ) (n : ℤ) :
    (gbmCloses mu sigma z start n).length = (n - 1).toNat + 1 :=
  walk_length _ _ _ _

theorem synthOpens_length (sigma : ℝ) (g : ℕ → ℝ) (prices : List ℝ) :
    (synthOpens sigma g prices).length = prices.length := by
  cases prices with
  | nil => rfl
  | cons p tl => simp [synthOpens]

theorem synthHL_length (sigma : ℝ) (u1 u2 : ℕ → ℝ) (opens closes : List ℝ) :
    (synthHL sigma u1 u2 opens closes).length =
      min opens.length closes.length := by
  simp [synthHL]

theorem arSmoothGo_length (prev : ℝ) (bs : List ℝ) :
    (arSmooth.arSmoothGo prev bs).length = bs.length + 1 := by
  induction bs generalizing prev with
  | nil => rfl
  | cons b bs ih => simp [arSmooth.arSmoothGo, ih]

theorem arSmooth_length (bs : List ℝ) :
    (arSmooth bs).length = bs.length := by
  cases bs with
  | nil => rfl
  | cons b tl => simp [arSmooth, arSmoothGo_length]

theorem volumeBase_length (zv : ℕ → ℝ) (n : ℕ) :
    (volumeBase zv n).length = n := by
  simp [volumeBase]

theorem priceChanges_length (closes : List ℝ) :
    (priceChanges closes).length = closes.length := by
  cases closes with
  | nil => rfl
  | cons c tl => simp [priceChanges]

theorem mcVolumes_length (zv : ℕ → ℝ) (closes : List ℝ) :
    (mcVolumes zv closes).length = closes.length := by
  simp [mcVolumes, arSmooth_length, volumeBase_length, priceChanges_length]

theorem stressVolumes_length (zv : ℕ → ℝ) (closes : List ℝ) :
    (stressVolumes zv closes).length = closes.length := by
  simp [stressVolumes, arSmooth_length, volumeBase_length,
    priceChanges_length]

theorem mkFrame_rows_of_lengths (d : DateSpec) (n : ℕ)
    (opens highs lows closes : List ℝ) (volumes : List ℤ)
    (ho : opens.length = n) (hh : highs.length = n) (hl : lows.length = n)
    (hc : closes.length = n) (hv : volumes.length = n) :
    (mkFrame d n opens highs lows closes volumes).map
      (fun f => f.bars.length) = Except.ok n := by
  rw [mkFrame, if_pos ⟨ho, hh, hl, hc, hv⟩]
  simp [Except.map, ho, hh, hl, hc, hv]

/-- Row count of an OHLC frame assembled from a close-price list with the
shared synthesis helpers (used by the MonteCarlo and stress generators). -/
theorem ohlcFrame_rows (d : DateSpec) (sigma : ℝ) (g u1 u2 : ℕ → ℝ)
    (prices : List ℝ) (volumes : List ℤ)
    (hv : volumes.length = prices.length) :
    (mkFrame d prices.length (synthOpens sigma g prices)
      ((synthHL sigma u1 u2 (synthOpens sigma g prices) prices).map
        Prod.fst)
      ((synthHL sigma u1 u2 (synthOpens sigma g prices) prices).map
        Prod.snd)
      prices volumes).map (fun f => f.bars.length) = Except.ok
        prices.length := by
  apply mkFrame_rows_of_lengths <;>
    simp [synthOpens_length, synthHL_length, hv]

theorem monteCarloGenerate_rows (L : ℕ) (fr : String) (mu sigma : ℝ)
    (o : Oracle) (b : Option ℝ) (h : 1 ≤ L) :
    (monteCarloGenerate L fr mu sigma o b).map (fun f => f.bars.length) =
      Except.ok L := by
  simp only [monteCarloGenerate]
  have hp : (gbmCloses mu sigma o.z (b.getD 100) (L : ℤ)).length = L := by
    rw [gbmCloses_length]; omega
  have hr := ohlcFrame_rows (DateSpec.byFreq (freqStr fr) L) sigma o.gap
    o.u1 o.u2 (gbmCloses mu sigma o.z (b.getD 100) (L : ℤ))
    (mcVolumes o.zvol (gbmCloses mu sigma o.z (b.getD 100) (L : ℤ)))
    (mcVolumes_length _ _)
  rw [hp] at hr
  exact hr

theorem garchGenerate_rows (L : ℕ) (fr : String)
    (omega_ alpha beta ip : ℝ) (o : Oracle) (b : Option ℝ) (h : 1 ≤ L) :
    (garchGenerate L fr omega_ alpha beta ip o b).map
      (fun f => f.bars.length) = Except.ok L := by
  simp only [garchGenerate]
  rw [if_neg (by omega)]
  simp [Except.map]

theorem regimeGenerate_rows (L : ℕ) (fr : String) (states : ℕ)
    (params : List (ℝ × ℝ)) (ip : ℝ) (o : Oracle) (b : Option ℝ)
    (h : 1 ≤ L) :
    (regimeGenerate L fr states params ip o b).map
      (fun q => q.1.bars.length) = Except.ok L := by
  simp only [regimeGenerate]
  rw [if_neg (by omega)]
  simp [Except.map]

theorem extremeGenerate_rows (L : ℕ) (fr : String) (cp ci sp si : ℝ)
    (o : Oracle) (b : Option ℝ) (h : 1 ≤ L) :
    (extremeGenerate L fr cp ci sp si o b).map (fun f => f.bars.length) =
      Except.ok L := by
  simp only [extremeGenerate]
  apply mkFrame_rows_of_lengths <;> simp [walk_length] <;> omega

theorem mapM_frame_rows (gen : ℕ → Except String Frame) (len : ℕ)
    (l : List ℕ)
    (h : ∀ i ∈ l, (gen i).map (fun f => f.bars.length) = Except.ok len) :
    (l.mapM gen).map (fun fs => fs.map (fun f => f.bars.length)) =
      Except.ok (List.replicate l.length len) := by
  induction l with
  | nil => rfl
  | cons i tl ih =>
      have hi := h i (List.mem_cons_self _ _)
      obtain ⟨f, hf, hflen⟩ : ∃ f, gen i = Except.ok f ∧
          f.bars.length = len := by
        cases hg : gen i with
        | error e => rw [hg] at hi; simp [Except.map] at hi
        | ok f =>
            rw [hg] at hi
            simp only [Except.map, Except.ok.injEq] at hi
            exact ⟨f, rfl, hi⟩
      have htl := ih (fun j hj => h j (List.mem_cons_of_mem _ hj))
      obtain ⟨fs, hfs, hfslen⟩ : ∃ fs, tl.mapM gen = Except.ok fs ∧
          fs.map (fun f => f.bars.length) = List.replicate tl.length len :=
        by
        cases hm : tl.mapM gen with
        | error e => rw [hm] at htl; simp [Except.map] at htl
        | ok fs =>
            rw [hm] at htl
            simp only [Except.map, Except.ok.injEq] at htl
            exact ⟨fs, rfl, htl⟩
      rw [List.mapM_cons, hf, hfs]
      show Except.ok ((f :: fs).map (fun f => f.bars.length)) =
        Except.ok (len :: List.replicate tl.length len)
      simp [hflen, hfslen]

theorem multiAssetGenerate_rows (L : ℕ) (fr : String) (n : ℕ)
    (mus sigmas : List ℝ) (corr : ℕ → ℕ → ℝ) (oa : ℕ → Oracle)
    (bc : List (Option ℝ)) (h : 1 ≤ L) :
    (multiAssetGenerate L fr n mus sigmas corr oa bc).map
      (fun fs => fs.map (fun f => f.bars.length)) =
      Except.ok (List.replicate n L) := by
  simp only [multiAssetGenerate]
  rw [show List.replicate n L = List.replicate (List.range n).length L by
    rw [List.length_range]]
  apply mapM_frame_rows
  intro i _
  set mu := (if mus.length = n then mus
    else List.replicate n 0.0001).getD i 0.0001 with hmu
  set sigma := (if sigmas.length = n then sigmas
    else List.replicate n 0.01).getD i 0.01 with hsigma
  set start := ((bc.getD i none).getD 100) with hstart
  have hp : (walk (fun p j => p * Real.exp (mu + sigma * corr j i)) start 1
      ((L : ℤ) - 1).toNat).length = L := by
    rw [walk_length]; omega
  have hr := ohlcFrame_rows (DateSpec.byFreq (freqStr fr) L) sigma
    (oa i).gap (oa i).u1 (oa i).u2
    (walk (fun p j => p * Real.exp (mu + sigma * corr j i)) start 1
      ((L : ℤ) - 1).toNat)
    (mcVolumes (oa i).zvol
      (walk (fun p j => p * Real.exp (mu + sigma * corr j i)) start 1
        ((L : ℤ) - 1).toNat))
    (mcVolumes_length _ _)
  rw [hp] at hr
  exact hr

theorem stressGenerate_rows (L cd cr rd rc vd : ℕ) (ci ri vm mu sigma : ℝ)
    (et : String) (pick : ℕ) (fr : String) (o : Oracle) (b : Option ℝ)
    (ps : List ℝ)
    (h : stressPricesFor L cd cr rd rc vd ci ri vm mu sigma et pick o
      (b.getD 100) = Except.ok ps) :
    (stressGenerate L cd cr rd rc vd ci ri vm mu sigma et pick fr o b).map
      (fun f => f.bars.length) = Except.ok ps.length := by
  simp only [stressGenerate, h]
  exact ohlcFrame_rows _ _ _ _ _ _ _ (stressVolumes_length _ _)

theorem stressCrash_len (L cd cr : ℕ) (ci mu sigma : ℝ) (o : Oracle)
    (sp : ℝ) (hcd : 1 ≤ cd) (hL : 3 ≤ L) :
    (stressCrash L cd cr ci mu sigma o sp).map List.length =
      Except.ok L := by
  simp only [stressCrash]
  by_cases h10 : ((L : ℤ) - cd - cr) < 10
  · simp only [if_pos h10]
    rw [if_neg (by
      simp only [List.isEmpty_eq_true, List.map_eq_nil_iff,
        List.range_eq_nil]
      omega)]
    simp only [Except.map, List.length_append, List.length_map,
      List.length_range, gbmCloses_length, Except.ok.injEq]
    omega
  · simp only [if_neg h10]
    rw [if_neg (by
      simp only [List.isEmpty_eq_true, List.map_eq_nil_iff,
        List.range_eq_nil]
      omega)]
    simp only [Except.map, List.length_append, List.length_map,
      List.length_range, gbmCloses_length, Except.ok.injEq]
    omega

theorem stressRally_len (L rd rc : ℕ) (ri mu sigma : ℝ) (o : Oracle)
    (sp : ℝ) (hrd : 1 ≤ rd) (hL : 3 ≤ L) :
    (stressRally L rd rc ri mu sigma o sp).map List.length =
      Except.ok L := by
  simp only [stressRally]
  by_cases h10 : ((L : ℤ) - rd - rc) < 10
  · simp only [if_pos h10]
    rw [if_neg (by
      simp only [List.isEmpty_eq_true, List.map_eq_nil_iff,
        List.range_eq_nil]
      omega)]
    simp only [Except.map, List.length_append, List.length_map,
      List.length_range, gbmCloses_length, Except.ok.injEq]
    omega
  · simp only [if_neg h10]
    rw [if_neg (by
      simp only [List.isEmpty_eq_true, List.map_eq_nil_iff,
        List.range_eq_nil]
      omega)]
    simp only [Except.map, List.length_append, List.length_map,
      List.length_range, gbmCloses_length, Except.ok.injEq]
    omega

theorem stressVolPhase_len (L vd : ℕ) (vm mu sigma : ℝ) (o : Oracle)
    (sp : ℝ) :
    (stressVolPhase L vd vm mu sigma o sp).length =
      ((Int.fdiv ((L : ℤ) - vd) 2 - 1).toNat + 1) +
        ((((vd : ℤ)) - 1).toNat + 1) +
        ((((L : ℤ) - Int.fdiv ((L : ℤ) - vd) 2 - vd) - 1).toNat + 1) := by
  simp only [stressVolPhase]
  simp [List.length_append, gbmCloses_length]
  omega

theorem stressVolPhase_len_eq (L vd : ℕ) (vm mu sigma : ℝ) (o : Oracle)
    (sp : ℝ) (h1 : 1 ≤ vd) (h2 : vd + 2 ≤ L) :
    (stressVolPhase L vd vm mu sigma o sp).length = L := by
  rw [stressVolPhase_len, Int.fdiv_eq_ediv _ (by norm_num)]
  omega

theorem exists_ok_of_map_length {e : Except String (List ℝ)} {L : ℕ}
    (h : e.map List.length = Except.ok L) :
    ∃ ps, e = Except.ok ps ∧ ps.length = L := by
  cases e with
  | error s => simp [Except.map] at h
  | ok ps =>
      refine ⟨ps, rfl, ?_⟩
      simpa [Except.map] using h

/-- C4 (amended): every generator returns exactly `length` rows for
`length ≥ 1` — except the stress-test generator, whose crash and rally
compositions preserve the total through the thirds reallocation (for
`length ≥ 3` and a positive configured duration), while the
high-volatility composition has NO reallocation and preserves the total
only when `vol_duration ≥ 1` and `length ≥ vol_duration + 2` (see the
counterexample `stress_volatility_wrong_row_count`). -/
theorem generator_row_counts :
    (∀ (L : ℕ) (fr : String) (mu sigma : ℝ) (o : Oracle) (b : Option ℝ),
      1 ≤ L → (monteCarloGenerate L fr mu sigma o b).map
        (fun f => f.bars.length) = Except.ok L) ∧
    (∀ (L : ℕ) (fr : String) (om al be ip : ℝ) (o : Oracle)
      (b : Option ℝ), 1 ≤ L → (garchGenerate L fr om al be ip o b).map
        (fun f => f.bars.length) = Except.ok L) ∧
    (∀ (L : ℕ) (fr : String) (st : ℕ) (params : List (ℝ × ℝ)) (ip : ℝ)
      (o : Oracle) (b : Option ℝ), 1 ≤ L →
      (regimeGenerate L fr st params ip o b).map
        (fun q => q.1.bars.length) = Except.ok L) ∧
    (∀ (L : ℕ) (fr : String) (cp ci sp si : ℝ) (o : Oracle)
      (b : Option ℝ), 1 ≤ L → (extremeGenerate L fr cp ci sp si o b).map
        (fun f => f.bars.length) = Except.ok L) ∧
    (∀ (L : ℕ) (fr : String) (n : ℕ) (mus sigmas : List ℝ)
      (corr : ℕ → ℕ → ℝ) (oa : ℕ → Oracle) (bc : List (Option ℝ)),
      1 ≤ L → (multiAssetGenerate L fr n mus sigmas corr oa bc).map
        (fun fs => fs.map (fun f => f.bars.length)) =
        Except.ok (List.replicate n L)) ∧
    (∀ (L cd cr rd rc vd : ℕ) (ci ri vm mu sigma : ℝ) (pick : ℕ)
      (fr : String) (o : Oracle) (b : Option ℝ), 1 ≤ cd → 3 ≤ L →
      (stressGenerate L cd cr rd rc vd ci ri vm mu sigma "crash" pick fr o
        b).map (fun f => f.bars.length) = Except.ok L) ∧
    (∀ (L cd cr rd rc vd : ℕ) (ci ri vm mu sigma : ℝ) (pick : ℕ)
      (fr : String) (o : Oracle) (b : Option ℝ), 1 ≤ rd → 3 ≤ L →
      (stressGenerate L cd cr rd rc vd ci ri vm mu sigma "rally" pick fr o
        b).map (fun f => f.bars.length) = Except.ok L) ∧
    (∀ (L cd cr rd rc vd : ℕ) (ci ri vm mu sigma : ℝ) (pick : ℕ)
      (fr : String) (o : Oracle) (b : Option ℝ), 1 ≤ vd → vd + 2 ≤ L →
      (stressGenerate L cd cr rd rc vd ci ri vm mu sigma "volatility" pick
        fr o b).map (fun f => f.bars.length) = Except.ok L) := by
  refine ⟨monteCarloGenerate_rows, garchGenerate_rows,
    regimeGenerate_rows, extremeGenerate_rows, multiAssetGenerate_rows,
    ?_, ?_, ?_⟩
  · intro L cd cr rd rc vd ci ri vm mu sigma pick fr o b hcd hL
    obtain ⟨ps, hps, hlen⟩ := exists_ok_of_map_length
      (stressCrash_len L cd cr ci mu sigma o (b.getD 100) hcd hL)
    have hd : stressPricesFor L cd cr rd rc vd ci ri vm mu sigma "crash"
        pick o (b.getD 100) = Except.ok ps := by
      rw [stressPricesFor, if_pos rfl]
      exact hps
    rw [stressGenerate_rows L cd cr rd rc vd ci ri vm mu sigma "crash"
      pick fr o b ps hd, hlen]
  · intro L cd cr rd rc vd ci ri vm mu sigma pick fr o b hrd hL
    obtain ⟨ps, hps, hlen⟩ := exists_ok_of_map_length
      (stressRally_len L rd rc ri mu sigma o (b.getD 100) hrd hL)
    have hd : stressPricesFor L cd cr rd rc vd ci ri vm mu sigma "rally"
        pick o (b.getD 100) = Except.ok ps := by
      rw [stressPricesFor, if_neg (by decide), if_pos rfl]
      exact hps
    rw [stressGenerate_rows L cd cr rd rc vd ci ri vm mu sigma "rally"
      pick fr o b ps hd, hlen]
  · intro L cd cr rd rc vd ci ri vm mu sigma pick fr o b hvd hL
    have hd : stressPricesFor L cd cr rd rc vd ci ri vm mu sigma
        "volatility" pick o (b.getD 100) =
        Except.ok (stressVolPhase L vd vm mu sigma o (b.getD 100)) := by
      rw [stressPricesFor, if_neg (by decide), if_neg (by decide),
        if_pos rfl]
    rw [stressGenerate_rows L cd cr rd rc vd ci ri vm mu sigma
      "volatility" pick fr o b _ hd,
      stressVolPhase_len_eq L vd vm mu sigma o (b.getD 100) hvd hL]

/-- Witness for C4 (amended), at length-1 and length-3 configurations. -/
theorem generator_row_counts_witness :
    (monteCarloGenerate 1 "D" 0.0001 0.01 zeroOracle none).map
        (fun f => f.bars.length) = Except.ok 1 ∧
      (garchGenerate 1 "D" 0.00001 0.1 0.8 100 zeroOracle none).map
        (fun f => f.bars.length) = Except.ok 1 ∧
      (regimeGenerate 1 "D" 2 [(0.0001, 0.01), (0.0002, 0.03)] 100
        zeroOracle none).map (fun q => q.1.bars.length) = Except.ok 1 ∧
      (extremeGenerate 1 "D" 0.01 0.1 0.01 0.1 zeroOracle none).map
        (fun f => f.bars.length) = Except.ok 1 ∧
      (multiAssetGenerate 1 "D" 2 [0.0001, 0.0001] [0.01, 0.01]
        (fun _ _ => 0) (fun _ => zeroOracle) []).map
        (fun fs => fs.map (fun f => f.bars.length)) =
        Except.ok (List.replicate 2 1) ∧
      (stressGenerate 3 1 0 1 0 1 0.3 0.3 3.0 0.0001 0.01 "crash" 0 "D"
        zeroOracle none).map (fun f => f.bars.length) = Except.ok 3 ∧
      (stressGenerate 3 1 0 1 0 1 0.3 0.3 3.0 0.0001 0.01 "rally" 0 "D"
        zeroOracle none).map (fun f => f.bars.length) = Except.ok 3 ∧
      (stressGenerate 3 1 0 1 0 1 0.3 0.3 3.0 0.0001 0.01 "volatility" 0
        "D" zeroOracle none).map (fun f => f.bars.length) = Except.ok 3 :=
  ⟨generator_row_counts.1 1 "D" 0.0001 0.01 zeroOracle none (by norm_num),
    generator_row_counts.2.1 1 "D" 0.00001 0.1 0.8 100 zeroOracle none
      (by norm_num),
    generator_row_counts.2.2.1 1 "D" 2 [(0.0001, 0.01), (0.0002, 0.03)]
      100 zeroOracle none (by norm_num),
    generator_row_counts.2.2.2.1 1 "D" 0.01 0.1 0.01 0.1 zeroOracle none
      (by norm_num),
    generator_row_counts.2.2.2.2.1 1 "D" 2 [0.0001, 0.0001] [0.01, 0.01]
      (fun _ _ => 0) (fun _ => zeroOracle) [] (by norm_num),
    generator_row_counts.2.2.2.2.2.1 3 1 0 1 0 1 0.3 0.3 3.0 0.0001 0.01
      0 "D" zeroOracle none (by norm_num) (by norm_num),
    generator_row_counts.2.2.2.2.2.2.1 3 1 0 1 0 1 0.3 0.3 3.0 0.0001
      0.01 0 "D" zeroOracle none (by norm_num) (by norm_num),
    generator_row_counts.2.2.2.2.2.2.2 3 1 0 1 0 1 0.3 0.3 3.0 0.0001
      0.01 0 "D" zeroOracle none (by norm_num) (by norm_num)⟩

/-- Counterexample to C4 as stated: the stress-test generator with
`event_type = volatility`, `length = 10` and `vol_duration = 40` (both
well-formed positive configuration values) returns a series with 42 rows,
not 10: `_generate_high_volatility` has no phase-length reallocation, each
Python phase list has `max(1, n)` elements, and `1 + 40 + 1 = 42`. -/
theorem stress_volatility_wrong_row_count :
    (stressGenerate 10 20 60 20 30 40 0.3 0.3 3.0 0.0001 0.01 "volatility"
        0 "D" zeroOracle none).map (fun f => f.bars.length) =
      Except.ok 42 ∧ (42 : ℕ) ≠ 10 := by
  constructor
  · have hd : stressPricesFor 10 20 60 20 30 40 0.3 0.3 3.0 0.0001 0.01
        "volatility" 0 zeroOracle ((none : Option ℝ).getD 100) =
        Except.ok (stressVolPhase 10 40 3.0 0.0001 0.01 zeroOracle
          ((none : Option ℝ).getD 100)) := by
      rw [stressPricesFor, if_neg (by decide), if_neg (by decide),
        if_pos rfl]
    rw [stressGenerate_rows 10 20 60 20 30 40 0.3 0.3 3.0 0.0001 0.01
      "volatility" 0 "D" zeroOracle none _ hd]
    rw [stressVolPhase_len]
    exact congrArg Except.ok (by decide)
  · norm_num

/-- C6 (amended): there is no `ConfigurationError` anywhere in the package.
An unrecognized `frequency` is silently treated as daily — the frequency
mapping falls back to the daily code with no error and no log, and
generation proceeds exactly as with `frequency = D` — and `length < 1` is
not validated: a zero length either trips a generic pandas/numpy error
(`IndexError` in the GARCH generator shown here) or misbehaves, but no
configuration check fires. -/
theorem no_configuration_error :
    (∀ freq : String, ¬(freq = "D" ∨ freq = "H" ∨ freq = "M") →
      freqStr freq = freqStr "D" ∧ timeDelta freq = timeDelta "D") ∧
    (∀ (L : ℕ) (freq : String) (mu sigma : ℝ) (o : Oracle)
      (b : Option ℝ), ¬(freq = "D" ∨ freq = "H" ∨ freq = "M") →
      monteCarloGenerate L freq mu sigma o b =
        monteCarloGenerate L "D" mu sigma o b) ∧
    (∀ (freq : String) (om al be ip : ℝ) (o : Oracle) (b : Option ℝ),
      garchGenerate 0 freq om al be ip o b =
        Except.error "IndexError: index 0 is out of bounds") := by
  refine ⟨?_, ?_, ?_⟩
  · intro freq h
    push_neg at h
    obtain ⟨h1, h2, h3⟩ := h
    constructor
    · simp [freqStr, h1, h2, h3]
    · simp [timeDelta, h1, h2, h3]
  · intro L freq mu sigma o b h
    push_neg at h
    obtain ⟨h1, h2, h3⟩ := h
    simp only [monteCarloGenerate]
    rw [show freqStr freq = freqStr "D" by simp [freqStr, h1, h2, h3]]
  · intro freq om al be ip o b
    rw [garchGenerate, if_pos rfl]

/-- Witness for C6 (amended) at the unrecognized frequency string
`weekly`. -/
theorem no_configuration_error_witness :
    freqStr "weekly" = freqStr "D" ∧ timeDelta "weekly" = timeDelta "D" ∧
      monteCarloGenerate 5 "weekly" 0.0001 0.01 zeroOracle none =
        monteCarloGenerate 5 "D" 0.0001 0.01 zeroOracle none ∧
      garchGenerate 0 "weekly" 0.00001 0.1 0.8 100 zeroOracle none =
        Except.error "IndexError: index 0 is out of bounds" :=
  ⟨(no_configuration_error.1 "weekly" (by decide)).1,
    (no_configuration_error.1 "weekly" (by decide)).2,
    no_configuration_error.2.1 5 "weekly" 0.0001 0.01 zeroOracle none
      (by decide),
    no_configuration_error.2.2 "weekly" 0.00001 0.1 0.8 100 zeroOracle
      none⟩

/-- Counterexample to C6 as stated: with the unrecognized frequency string
`weekly` (and length 5), `MonteCarloGenerator.generate` does not fail at
all — it succeeds with 5 rows, silently treating the frequency as daily
(`B`); no `ConfigurationError` (a type that does not exist in the code)
is raised. -/
theorem unknown_frequency_generates :
    (monteCarloGenerate 5 "weekly" 0.0001 0.01 zeroOracle none).map
        (fun f => f.bars.length) = Except.ok 5 ∧
      freqStr "weekly" = "B" :=
  ⟨monteCarloGenerate_rows 5 "weekly" 0.0001 0.01 zeroOracle none
    (by norm_num), by decide⟩

/-- C7 (amended): given a seed, construct-then-generate is deterministic —
independent of the pre-existing global random state — for the MonteCarlo,
GARCH, regime, extreme and multi-asset generators, and for the stress-test
generator with an explicit event type; the stress-test generator with
`event_type = random` is excluded, because its event draw comes from
Python's never-seeded `random` module (see the counterexample
`stress_random_depends_on_python_state`). -/
theorem seeded_generation_deterministic :
    (∀ (ent : ℕ → Oracle) (L : ℕ) (fr : String) (mu sigma : ℝ) (seed : ℕ)
      (b : Option ℝ) (g g' : PRand),
      (mcPipeline ent L fr mu sigma seed b g).1 =
        (mcPipeline ent L fr mu sigma seed b g').1) ∧
    (∀ (ent : ℕ → Oracle) (L : ℕ) (fr : String) (om al be ip : ℝ)
      (seed : ℕ) (b : Option ℝ) (g g' : PRand),
      (garchPipeline ent L fr om al be ip seed b g).1 =
        (garchPipeline ent L fr om al be ip seed b g').1) ∧
    (∀ (ent : ℕ → Oracle) (L : ℕ) (fr : String) (st : ℕ)
      (params : List (ℝ × ℝ)) (ip : ℝ) (seed : ℕ) (b : Option ℝ)
      (g g' : PRand),
      (regimePipeline ent L fr st params ip seed b g).1 =
        (regimePipeline ent L fr st params ip seed b g').1) ∧
    (∀ (ent : ℕ → Oracle) (L : ℕ) (fr : String) (cp ci sp si : ℝ)
      (seed : ℕ) (b : Option ℝ) (g g' : PRand),
      (extremePipeline ent L fr cp ci sp si seed b g).1 =
        (extremePipeline ent L fr cp ci sp si seed b g').1) ∧
    (∀ (ent : ℕ → ℕ → Oracle) (L : ℕ) (fr : String) (n : ℕ)
      (mus sigmas : List ℝ) (corr : ℕ → ℕ → ℝ) (seed : ℕ)
      (bc : List (Option ℝ)) (g g' : PRand),
      (multiAssetPipeline ent L fr n mus sigmas corr seed bc g).1 =
        (multiAssetPipeline ent L fr n mus sigmas corr seed bc g').1) ∧
    (∀ (ent : ℕ → Oracle) (pyEnt : ℕ → ℕ) (L cd cr rd rc vd : ℕ)
      (ci ri vm mu sigma : ℝ) (et fr : String) (seed : ℕ) (b : Option ℝ)
      (g g' : PRand),
      (et = "crash" ∨ et = "rally" ∨ et = "volatility") →
      (stressPipeline ent pyEnt L cd cr rd rc vd ci ri vm mu sigma et fr
        seed b g).1 =
        (stressPipeline ent pyEnt L cd cr rd rc vd ci ri vm mu sigma et fr
          seed b g').1) := by
  refine ⟨fun _ _ _ _ _ _ _ _ _ => rfl, fun _ _ _ _ _ _ _ _ _ _ _ => rfl,
    fun _ _ _ _ _ _ _ _ _ _ => rfl, fun _ _ _ _ _ _ _ _ _ _ _ => rfl,
    fun _ _ _ _ _ _ _ _ _ _ _ => rfl, ?_⟩
  intro ent pyEnt L cd cr rd rc vd ci ri vm mu sigma et fr seed b g g' h
  simp only [stressPipeline, if_pos h]

/-- Witness for C7 (amended): two stress runs with event type `crash`,
same seed, from different global states. -/
theorem seeded_generation_deterministic_witness :
    ("crash" = "crash" ∨ "crash" = "rally" ∨ "crash" = "volatility") ∧
      (stressPipeline (fun _ => zeroOracle) (fun k => k) 100 20 60 20 30
        40 0.3 0.3 3.0 0.0001 0.01 "crash" "D" 42 none ⟨0, 0⟩).1 =
        (stressPipeline (fun _ => zeroOracle) (fun k => k) 100 20 60 20 30
          40 0.3 0.3 3.0 0.0001 0.01 "crash" "D" 42 none ⟨7, 5⟩).1 :=
  ⟨Or.inl rfl,
    seeded_generation_deterministic.2.2.2.2.2 (fun _ => zeroOracle)
      (fun k => k) 100 20 60 20 30 40 0.3 0.3 3.0 0.0001 0.01 "crash" "D"
      42 none ⟨0, 0⟩ ⟨7, 5⟩ (Or.inl rfl)⟩

/-- Counterexample to C7 as stated: the stress-test generator with
`event_type = random` is NOT deterministic given the seed.  Its event draw
uses `random.choice` from Python's `random` module, which no code in the
repository ever seeds; two construct-then-generate runs with the identical
configuration (seed 42) but different pre-existing Python-random states
pick different events (crash vs volatility) and return different frames —
here even with different row counts (10 vs 42). -/
theorem stress_random_depends_on_python_state :
    (stressPipeline (fun _ => zeroOracle) (fun k => k) 10 20 60 20 30 40
        0.3 0.3 3.0 0.0001 0.01 "random" "D" 42 none ⟨0, 0⟩).1 ≠
      (stressPipeline (fun _ => zeroOracle) (fun k => k) 10 20 60 20 30 40
        0.3 0.3 3.0 0.0001 0.01 "random" "D" 42 none ⟨0, 2⟩).1 := by
  have h1 : (stressPipeline (fun _ => zeroOracle) (fun k => k) 10 20 60 20
      30 40 0.3 0.3 3.0 0.0001 0.01 "random" "D" 42 none ⟨0, 0⟩).1 =
      stressGenerate 10 20 60 20 30 40 0.3 0.3 3.0 0.0001 0.01 "random" 0
        "D" zeroOracle none := by
    rw [stressPipeline, if_neg (by decide)]
  have h2 : (stressPipeline (fun _ => zeroOracle) (fun k => k) 10 20 60 20
      30 40 0.3 0.3 3.0 0.0001 0.01 "random" "D" 42 none ⟨0, 2⟩).1 =
      stressGenerate 10 20 60 20 30 40 0.3 0.3 3.0 0.0001 0.01 "random" 2
        "D" zeroOracle none := by
    rw [stressPipeline, if_neg (by decide)]
  rw [h1, h2]
  intro heq
  obtain ⟨ps, hps, hlen⟩ := exists_ok_of_map_length
    (stressCrash_len 10 20 60 0.3 0.0001 0.01 zeroOracle 100 (by norm_num)
      (by norm_num))
  have hd1 : stressPricesFor 10 20 60 20 30 40 0.3 0.3 3.0 0.0001 0.01
      "random" 0 zeroOracle ((none : Option ℝ).getD 100) =
      Except.ok ps := by
    rw [stressPricesFor, if_neg (by decide), if_neg (by decide),
      if_neg (by decide), if_pos (by norm_num)]
    simpa using hps
  have hd2 : stressPricesFor 10 20 60 20 30 40 0.3 0.3 3.0 0.0001 0.01
      "random" 2 zeroOracle ((none : Option ℝ).getD 100) =
      Except.ok (stressVolPhase 10 40 3.0 0.0001 0.01 zeroOracle
        ((none : Option ℝ).getD 100)) := by
    rw [stressPricesFor, if_neg (by decide), if_neg (by decide),
      if_neg (by decide), if_neg (by norm_num), if_neg (by norm_num)]
  have hr1 := stressGenerate_rows 10 20 60 20 30 40 0.3 0.3 3.0 0.0001
    0.01 "random" 0 "D" zeroOracle none ps hd1
  have hr2 := stressGenerate_rows 10 20 60 20 30 40 0.3 0.3 3.0 0.0001
    0.01 "random" 2 "D" zeroOracle none _ hd2
  rw [heq] at hr1
  rw [hr2] at hr1
  rw [hlen] at hr1
  have h42 : (stressVolPhase 10 40 3.0 0.0001 0.01 zeroOracle
      ((none : Option ℝ).getD 100)).length = 42 := by
    rw [stressVolPhase_len]
    decide
  rw [h42] at hr1
  exact absurd (Except.ok.inj hr1) (by norm_num)

/-! ### The OHLC bar invariant -/

theorem hlPair_spec (sigma a b o c : ℝ) (ho : 0 < o) (hc : 0 < c) :
    (hlPair sigma a b o c).2 ≤ min o c ∧
      max o c ≤ (hlPair sigma a b o c).1 ∧ 0 < (hlPair sigma a b o c).2 := by
  refine ⟨min_le_right _ _, le_max_right _ _, lt_min ?_ (lt_min ho hc)⟩
  exact lt_max_of_lt_right (by norm_num)

theorem mkFrame_bars_elem (d : DateSpec) (n : ℕ)
    (opens highs lows closes : List ℝ) (volumes : List ℤ) (f : Frame)
    (hok : mkFrame d n opens highs lows closes volumes = Except.ok f) :
    ∀ b ∈ f.bars, ∃ (i : ℕ) (hio : i < opens.length)
      (hih : i < highs.length) (hil : i < lows.length)
      (hic : i < closes.length) (hiv : i < volumes.length),
      b = ⟨opens[i], highs[i], lows[i], closes[i], volumes[i]⟩ := by
  intro b hb
  rw [mkFrame] at hok
  split at hok
  · rename_i hlen
    obtain ⟨h1, h2, h3, h4, h5⟩ := hlen
    cases hok
    simp only [List.mem_map] at hb
    obtain ⟨q, hq, rfl⟩ := hb
    obtain ⟨i, hi, hqi⟩ := List.mem_iff_getElem.mp hq
    have hi1 : i < opens.length := by
      simp [List.length_zip] at hi; omega
    have hi2 : i < highs.length := by
      simp [List.length_zip] at hi; omega
    have hi3 : i < lows.length := by
      simp [List.length_zip] at hi; omega
    have hi4 : i < closes.length := by
      simp [List.length_zip] at hi; omega
    have hi5 : i < volumes.length := by
      simp [List.length_zip] at hi; omega
    refine ⟨i, hi1, hi2, hi3, hi4, hi5, ?_⟩
    rw [← hqi]
    simp [List.getElem_zip]
  · cases hok

theorem synthHL_getElem (sigma : ℝ) (u1 u2 : ℕ → ℝ)
    (opens closes : List ℝ) (i : ℕ) (hio : i < opens.length)
    (hic : i < closes.length)
    (hi : i < (synthHL sigma u1 u2 opens closes).length) :
    (synthHL sigma u1 u2 opens closes)[i] =
      hlPair sigma (u1 i) (u2 i) opens[i] closes[i] := by
  simp [synthHL, List.getElem_zip]

theorem walk_pos (f : ℝ → ℕ → ℝ) (hf : ∀ p k, 0 < p → 0 < f p k)
    (start : ℝ) (hs : 0 < start) (i n : ℕ) :
    ∀ x ∈ walk f start i n, 0 < x := by
  induction n generalizing start i with
  | zero =>
      intro x hx
      simp [walk] at hx
      exact hx ▸ hs
  | succ k ih =>
      intro x hx
      simp only [walk, List.mem_cons] at hx
      rcases hx with rfl | hx
      · exact hs
      · exact ih (f start i) (hf start i hs) (i + 1) x hx

theorem gbmCloses_pos (mu sigma : ℝ) (z : ℕ → ℝ) (start : ℝ)
    (hs : 0 < start) (n : ℤ) : ∀ x ∈ gbmCloses mu sigma z start n, 0 < x :=
  walk_pos _ (fun p k hp => mul_pos hp (Real.exp_pos _)) start hs _ _

theorem getLastD_pos (l : List ℝ) (hne : l ≠ [])
    (h : ∀ x ∈ l, 0 < x) : 0 < l.getLastD 0 := by
  rw [List.getLastD_eq_getLast?, List.getLast?_eq_getLast l hne,
    Option.getD_some]
  exact h _ (List.getLast_mem hne)

theorem uniform_lb (a b u : ℝ) (hu : 0 ≤ u) (hab : a ≤ b) :
    a ≤ uniform a b u := by
  have : 0 ≤ (b - a) * u := mul_nonneg (by linarith) hu
  simp only [uniform]
  linarith

theorem uniform_ub (a b u : ℝ) (hu : u < 1) (hu0 : 0 ≤ u) (hab : a ≤ b) :
    uniform a b u ≤ b := by
  have h1 : (b - a) * u ≤ (b - a) * 1 :=
    mul_le_mul_of_nonneg_left (le_of_lt hu) (by linarith)
  simp only [uniform]
  linarith

theorem synthOpens_pos (sigma : ℝ) (o : Oracle) (prices : List ℝ)
    (hp : ∀ x ∈ prices, 0 < x) (hs0 : 0 ≤ sigma) (hs2 : sigma < 2) :
    ∀ x ∈ synthOpens sigma o.gap prices, 0 < x := by
  intro x hx
  cases prices with
  | nil => simp [synthOpens] at hx
  | cons p tl =>
      simp only [synthOpens, List.mem_cons, List.mem_map] at hx
      rcases hx with rfl | ⟨q, hq, rfl⟩
      · exact hp _ (List.mem_cons_self _ _)
      · have hq2 : q.2 ∈ (p :: tl).dropLast := by
          obtain ⟨i, hi, hqi⟩ := List.mem_iff_getElem.mp hq
          have hlen : i < (p :: tl).dropLast.length := by
            simpa using hi
          have : q = (i, (p :: tl).dropLast[i]) := by
            rw [← hqi]; simp
          rw [this]
          exact List.getElem_mem _
        have hprev : 0 < q.2 := hp _ (List.dropLast_subset _ hq2)
        have hgap : -(sigma / 2) ≤ uniform (-(sigma / 2)) (sigma / 2)
            (o.gap (q.1 + 1)) :=
          uniform_lb _ _ _ (o.gap_nonneg _) (by linarith)
        have hfac : 0 < 1 + uniform (-(sigma / 2)) (sigma / 2)
            (o.gap (q.1 + 1)) := by linarith
        exact mul_pos hprev hfac

theorem arSmoothGo_pos (prev : ℝ) (bs : List ℝ) (hprev : 0 < prev)
    (h : ∀ x ∈ bs, 0 < x) : ∀ x ∈ arSmooth.arSmoothGo prev bs, 0 < x := by
  induction bs generalizing prev with
  | nil =>
      intro x hx
      simp [arSmooth.arSmoothGo] at hx
      exact hx ▸ hprev
  | cons b bs ih =>
      intro x hx
      simp only [arSmooth.arSmoothGo, List.mem_cons] at hx
      rcases hx with rfl | hx
      · exact hprev
      · have hb : 0 < b := h _ (List.mem_cons_self _ _)
        exact ih _ (by linarith) (fun y hy => h y (List.mem_cons_of_mem _ hy))
          x hx

theorem arSmooth_pos (bs : List ℝ) (h : ∀ x ∈ bs, 0 < x) :
    ∀ x ∈ arSmooth bs, 0 < x := by
  cases bs with
  | nil => intro x hx; simp [arSmooth] at hx
  | cons b tl =>
      exact arSmoothGo_pos b tl (h _ (List.mem_cons_self _ _))
        (fun y hy => h y (List.mem_cons_of_mem _ hy))

theorem volumeBase_pos (zv : ℕ → ℝ) (n : ℕ) :
    ∀ x ∈ volumeBase zv n, 0 < x := by
  intro x hx
  simp only [volumeBase, List.mem_map] at hx
  obtain ⟨k, _, rfl⟩ := hx
  exact Real.exp_pos _

theorem priceChanges_nonneg (closes : List ℝ)
    (h : ∀ x ∈ closes, 0 < x) : ∀ x ∈ priceChanges closes, 0 ≤ x := by
  intro x hx
  cases closes with
  | nil => simp [priceChanges] at hx
  | cons c cs =>
      simp only [priceChanges, List.mem_cons, List.mem_map] at hx
      rcases hx with rfl | ⟨q, hq, rfl⟩
      · exact le_refl 0
      · have hq1 : 0 < q.1 := h _ (List.of_mem_zip hq).1
        exact div_nonneg (abs_nonneg _) hq1.le

theorem pyInt_nonneg (x : ℝ) (hx : 0 ≤ x) : 0 ≤ pyInt x := by
  rw [pyInt, if_pos hx]
  exact Int.floor_nonneg.mpr hx

theorem mcVolumes_nonneg (zv : ℕ → ℝ) (closes : List ℝ)
    (hc : ∀ x ∈ closes, 0 < x) : ∀ v ∈ mcVolumes zv closes, 0 ≤ v := by
  intro v hv
  simp only [mcVolumes, List.mem_map] at hv
  obtain ⟨q, hq, rfl⟩ := hv
  have h1 : 0 < q.1 :=
    arSmooth_pos _ (volumeBase_pos zv closes.length) _
      (List.of_mem_zip hq).1
  have h2 : 0 ≤ q.2 := priceChanges_nonneg closes hc _ (List.of_mem_zip hq).2
  apply pyInt_nonneg
  have : (0 : ℝ) ≤ 1 + 5 * Real.sqrt q.2 := by
    have := Real.sqrt_nonneg q.2
    linarith
  exact mul_nonneg h1.le this

theorem stressVolumes_nonneg (zv : ℕ → ℝ) (closes : List ℝ)
    (hc : ∀ x ∈ closes, 0 < x) : ∀ v ∈ stressVolumes zv closes, 0 ≤ v := by
  intro v hv
  simp only [stressVolumes, List.mem_map] at hv
  obtain ⟨q, hq, rfl⟩ := hv
  have h1 : 0 < q.1 :=
    arSmooth_pos _ (volumeBase_pos zv closes.length) _
      (List.of_mem_zip hq).1
  have h2 : 0 ≤ q.2 := priceChanges_nonneg closes hc _ (List.of_mem_zip hq).2
  apply pyInt_nonneg
  exact mul_nonneg h1.le (by linarith)

theorem randint_nonneg (lo hi n : ℕ) : 0 ≤ randint lo hi n := by
  simp only [randint]
  omega

theorem getD_cases {α : Type} (l : List α) (i : ℕ) (d : α) :
    l.getD i d = d ∨ l.getD i d ∈ l := by
  rw [List.getD_eq_getElem?_getD]
  cases h : l[i]? with
  | none => left; rfl
  | some x =>
      right
      simp only [Option.getD_some]
      exact List.getElem?_mem h

theorem garchSeq_pos (om al be : ℝ) (z : ℕ → ℝ) (p0 : ℝ) (hp0 : 0 < p0) :
    ∀ t, 0 < (garchSeq om al be z p0 t).1 := by
  intro t
  induction t with
  | zero => exact hp0
  | succ k ih => exact mul_pos ih (Real.exp_pos _)

theorem regimeSeq_pos (params : List (ℝ × ℝ)) (states : ℕ) (z : ℕ → ℝ)
    (choice : ℕ → ℕ) (p0 : ℝ) (hp0 : 0 < p0) :
    ∀ t, 0 < (regimeSeq params states z choice p0 t).1 := by
  intro t
  induction t with
  | zero => exact hp0
  | succ k ih => exact mul_pos ih (Real.exp_pos _)

theorem garchGenerate_barOk (L : ℕ) (fr : String) (om al be ip : ℝ)
    (o : Oracle) (b : Option ℝ) (hp0 : 0 < b.getD ip) :
    ∀ bar ∈ exceptBars (garchGenerate L fr om al be ip o b), BarOk bar := by
  intro bar hbar
  by_cases hL : L = 0
  · rw [garchGenerate, if_pos hL] at hbar
    simp [exceptBars] at hbar
  · rw [garchGenerate, if_neg hL] at hbar
    simp only [exceptBars, List.mem_map] at hbar
    obtain ⟨t, _, rfl⟩ := hbar
    have hp := garchSeq_pos om al be o.z (b.getD ip) hp0 t
    exact ⟨by simp, by simp, hp, randint_nonneg _ _ _⟩

theorem regimeGenerate_barOk (L : ℕ) (fr : String) (states : ℕ)
    (params : List (ℝ × ℝ)) (ip : ℝ) (o : Oracle) (b : Option ℝ)
    (hp0 : 0 < b.getD ip)
    (hparams : ∀ pr ∈ params, 0 ≤ pr.2 ∧ pr.2 < 2) :
    ∀ bar ∈ exceptBarsR (regimeGenerate L fr states params ip o b),
      BarOk bar := by
  intro bar hbar
  by_cases hL : L = 0
  · rw [regimeGenerate, if_pos hL] at hbar
    simp [exceptBarsR] at hbar
  · rw [regimeGenerate, if_neg hL] at hbar
    simp only [exceptBarsR, List.mem_map] at hbar
    obtain ⟨t, _, rfl⟩ := hbar
    have hp := regimeSeq_pos params states o.z o.choice (b.getD ip) hp0 t
    have hsig : 0 ≤ (params.getD (regimeSeq params states o.z o.choice
        (b.getD ip) t).2 (0, 0)).2 ∧
        (params.getD (regimeSeq params states o.z o.choice
          (b.getD ip) t).2 (0, 0)).2 < 2 := by
      rcases getD_cases params _ ((0 : ℝ), (0 : ℝ)) with h | h
      · rw [h]; norm_num
      · exact hparams _ h
    have hlow : 0 < (regimeSeq params states o.z o.choice (b.getD ip) t).1 *
        (1 - uniform 0 ((params.getD (regimeSeq params states o.z o.choice
          (b.getD ip) t).2 (0, 0)).2 / 2) (o.u2 t)) := by
      apply mul_pos hp
      have := uniform_ub 0 ((params.getD (regimeSeq params states o.z
        o.choice (b.getD ip) t).2 (0, 0)).2 / 2) (o.u2 t) (o.u2_lt_one t)
        (o.u2_nonneg t) (by linarith [hsig.1])
      linarith [hsig.2]
    refine ⟨?_, ?_, lt_min hlow hp, randint_nonneg _ _ _⟩
    · simp
    · simp

theorem extremeGenerate_barOk (L : ℕ) (fr : String) (cp ci sp si : ℝ)
    (o : Oracle) (b : Option ℝ) :
    ∀ bar ∈ exceptBars (extremeGenerate L fr cp ci sp si o b),
      BarOk bar := by
  intro bar hbar
  simp only [extremeGenerate] at hbar
  cases hok : mkFrame (DateSpec.byStep (timeDelta fr) L) L
      ((walk (fun p k => p * (1 + 0.01 * o.z k)) (b.getD 100) 1
        ((L : ℤ) - 1).toNat).enum.map (fun q =>
          if o.e1 q.1 < cp then q.2 * (1 - ci * o.e2 q.1)
          else if o.e3 q.1 < sp then q.2 * (1 + si * o.e2 q.1)
          else q.2) |>.map (fun p => max 0.01 p))
      (((walk (fun p k => p * (1 + 0.01 * o.z k)) (b.getD 100) 1
        ((L : ℤ) - 1).toNat).enum.map (fun q =>
          if o.e1 q.1 < cp then q.2 * (1 - ci * o.e2 q.1)
          else if o.e3 q.1 < sp then q.2 * (1 + si * o.e2 q.1)
          else q.2) |>.map (fun p => max 0.01 p)).enum.map (fun q =>
        max (q.2 * (1 + uniform 0 0.02 (o.u1 q.1))) q.2))
      (((walk (fun p k => p * (1 + 0.01 * o.z k)) (b.getD 100) 1
        ((L : ℤ) - 1).toNat).enum.map (fun q =>
          if o.e1 q.1 < cp then q.2 * (1 - ci * o.e2 q.1)
          else if o.e3 q.1 < sp then q.2 * (1 + si * o.e2 q.1)
          else q.2) |>.map (fun p => max 0.01 p)).enum.map (fun q =>
        min (q.2 * (1 - uniform 0 0.02 (o.u2 q.1))) q.2))
      ((walk (fun p k => p * (1 + 0.01 * o.z k)) (b.getD 100) 1
        ((L : ℤ) - 1).toNat).enum.map (fun q =>
          if o.e1 q.1 < cp then q.2 * (1 - ci * o.e2 q.1)
          else if o.e3 q.1 < sp then q.2 * (1 + si * o.e2 q.1)
          else q.2) |>.map (fun p => max 0.01 p))
      ((List.range ((walk (fun p k => p * (1 + 0.01 * o.z k)) (b.getD 100)
        1 ((L : ℤ) - 1).toNat).enum.map (fun q =>
          if o.e1 q.1 < cp then q.2 * (1 - ci * o.e2 q.1)
          else if o.e3 q.1 < sp then q.2 * (1 + si * o.e2 q.1)
          else q.2) |>.map (fun p => max 0.01 p)).length).map
        (fun t => randint 100 10000 (o.nint t))) with
  | error e => rw [hok] at hbar; simp [exceptBars] at hbar
  | ok f =>
      rw [hok] at hbar
      simp only [exceptBars] at hbar
      set prices := (walk (fun p k => p * (1 + 0.01 * o.z k)) (b.getD 100)
        1 ((L : ℤ) - 1).toNat).enum.map (fun q =>
          if o.e1 q.1 < cp then q.2 * (1 - ci * o.e2 q.1)
          else if o.e3 q.1 < sp then q.2 * (1 + si * o.e2 q.1)
          else q.2) |>.map (fun p => max 0.01 p) with hprices
      have hppos : ∀ x ∈ prices, 0 < x := by
        intro x hx
        rw [hprices] at hx
        simp only [List.mem_map] at hx
        obtain ⟨y, _, rfl⟩ := hx
        exact lt_of_lt_of_le (by norm_num) (le_max_left _ _)
      obtain ⟨i, hio, hih, hil, hic, hiv, rfl⟩ :=
        mkFrame_bars_elem _ _ _ _ _ _ _ _ hok bar hbar
      have hplen : i < prices.length := hio
      have hpi : 0 < prices[i] := hppos _ (List.getElem_mem _)
      have hhigh : (prices.enum.map (fun q =>
          max (q.2 * (1 + uniform 0 0.02 (o.u1 q.1))) q.2))[i] =
          max (prices[i] * (1 + uniform 0 0.02 (o.u1 i))) prices[i] := by
        simp
      have hlow : (prices.enum.map (fun q =>
          min (q.2 * (1 - uniform 0 0.02 (o.u2 q.1))) q.2))[i] =
          min (prices[i] * (1 - uniform 0 0.02 (o.u2 i))) prices[i] := by
        simp
      have hvol : 0 ≤ ((List.range prices.length).map
          (fun t => randint 100 10000 (o.nint t)))[i] := by
        have : ((List.range prices.length).map
            (fun t => randint 100 10000 (o.nint t)))[i] ∈
            (List.range prices.length).map
              (fun t => randint 100 10000 (o.nint t)) :=
          List.getElem_mem _
        simp only [List.mem_map] at this
        obtain ⟨t, _, ht⟩ := this
        rw [← ht]
        exact randint_nonneg _ _ _
      have hlpos : 0 < prices[i] * (1 - uniform 0 0.02 (o.u2 i)) := by
        apply mul_pos hpi
        have := uniform_ub 0 0.02 (o.u2 i) (o.u2_lt_one i) (o.u2_nonneg i)
          (by norm_num)
        linarith
      refine ⟨?_, ?_, ?_, hvol⟩
      · show (prices.enum.map _)[i] ≤ _
        rw [hlow]
        simp [min_le_right]
      · show _ ≤ (prices.enum.map _)[i]
        rw [hhigh]
        simp [le_max_right]
      · show 0 < (prices.enum.map _)[i]
        rw [hlow]
        exact lt_min hlpos hpi

/-- Bar invariant for any frame assembled from positive opens and closes
with the shared high/low synthesis and nonnegative volumes. -/
theorem ohlcFrame_barOk (d : DateSpec) (n : ℕ) (sigma : ℝ)
    (u1 u2 : ℕ → ℝ) (opens prices : List ℝ) (volumes : List ℤ) (f : Frame)
    (hop : ∀ x ∈ opens, 0 < x) (hp : ∀ x ∈ prices, 0 < x)
    (hv : ∀ v ∈ volumes, 0 ≤ v)
    (hok : mkFrame d n opens
      ((synthHL sigma u1 u2 opens prices).map Prod.fst)
      ((synthHL sigma u1 u2 opens prices).map Prod.snd) prices volumes =
      Except.ok f) :
    ∀ bar ∈ f.bars, BarOk bar := by
  intro bar hbar
  obtain ⟨i, hio, hih, hil, hic, hiv, rfl⟩ :=
    mkFrame_bars_elem _ _ _ _ _ _ _ _ hok bar hbar
  have hio' : i < opens.length := hio
  have hic' : i < prices.length := hic
  have ho : 0 < opens[i] := hop _ (List.getElem_mem _)
  have hc : 0 < prices[i] := hp _ (List.getElem_mem _)
  have hhl := synthHL_getElem sigma u1 u2 opens prices i hio' hic'
    (by simp [synthHL_length]; omega)
  have hspec := hlPair_spec sigma (u1 i) (u2 i) opens[i] prices[i] ho hc
  have hvol : 0 ≤ volumes[i] := hv _ (List.getElem_mem _)
  have hhigh : ((synthHL sigma u1 u2 opens prices).map Prod.fst)[i] =
      (hlPair sigma (u1 i) (u2 i) opens[i] prices[i]).1 := by
    simp only [List.getElem_map]
    rw [hhl]
  have hlow : ((synthHL sigma u1 u2 opens prices).map Prod.snd)[i] =
      (hlPair sigma (u1 i) (u2 i) opens[i] prices[i]).2 := by
    simp only [List.getElem_map]
    rw [hhl]
  refine ⟨?_, ?_, ?_, hvol⟩
  · show ((synthHL sigma u1 u2 opens prices).map Prod.snd)[i] ≤ _
    rw [hlow]
    exact hspec.1
  · show _ ≤ ((synthHL sigma u1 u2 opens prices).map Prod.fst)[i]
    rw [hhigh]
    exact hspec.2.1
  · show 0 < ((synthHL sigma u1 u2 opens prices).map Prod.snd)[i]
    rw [hlow]
    exact hspec.2.2

theorem monteCarloGenerate_barOk (L : ℕ) (fr : String) (mu sigma : ℝ)
    (o : Oracle) (b : Option ℝ) (hs0 : 0 ≤ sigma) (hs2 : sigma < 2)
    (hb : 0 < b.getD 100) :
    ∀ bar ∈ exceptBars (monteCarloGenerate L fr mu sigma o b),
      BarOk bar := by
  intro bar hbar
  simp only [monteCarloGenerate, exceptBars] at hbar
  cases hok : mkFrame (DateSpec.byFreq (freqStr fr) L) L
      (synthOpens sigma o.gap (gbmCloses mu sigma o.z (b.getD 100) (L : ℤ)))
      ((synthHL sigma o.u1 o.u2
        (synthOpens sigma o.gap
          (gbmCloses mu sigma o.z (b.getD 100) (L : ℤ)))
        (gbmCloses mu sigma o.z (b.getD 100) (L : ℤ))).map Prod.fst)
      ((synthHL sigma o.u1 o.u2
        (synthOpens sigma o.gap
          (gbmCloses mu sigma o.z (b.getD 100) (L : ℤ)))
        (gbmCloses mu sigma o.z (b.getD 100) (L : ℤ))).map Prod.snd)
      (gbmCloses mu sigma o.z (b.getD 100) (L : ℤ))
      (mcVolumes o.zvol (gbmCloses mu sigma o.z (b.getD 100) (L : ℤ)))
    with
  | error e => rw [hok] at hbar; simp at hbar
  | ok f =>
      rw [hok] at hbar
      simp only at hbar
      have hppos := gbmCloses_pos mu sigma o.z (b.getD 100) hb (L : ℤ)
      exact ohlcFrame_barOk _ _ sigma o.u1 o.u2 _ _ _ f
        (synthOpens_pos sigma o _ hppos hs0 hs2) hppos
        (mcVolumes_nonneg o.zvol _ hppos) hok bar hbar

theorem mapM_ok_mem (gen : ℕ → Except String Frame) (l : List ℕ)
    (fs : List Frame) (h : l.mapM gen = Except.ok fs) :
    ∀ f ∈ fs, ∃ i ∈ l, gen i = Except.ok f := by
  induction l generalizing fs with
  | nil =>
      intro f hf
      simp only [List.mapM_nil] at h
      cases h
      simp at hf
  | cons i tl ih =>
      intro f hf
      rw [List.mapM_cons] at h
      cases hg : gen i with
      | error e => rw [hg] at h; exact Except.noConfusion h
      | ok f0 =>
          rw [hg] at h
          cases hm : tl.mapM gen with
          | error e =>
              rw [hm] at h
              exact Except.noConfusion h
          | ok fs0 =>
              rw [hm] at h
              have : fs = f0 :: fs0 := by
                cases h
                rfl
              subst this
              rcases List.mem_cons.mp hf with rfl | hf0
              · exact ⟨i, List.mem_cons_self _ _, hg⟩
              · obtain ⟨j, hj, hgj⟩ := ih fs0 hm f hf0
                exact ⟨j, List.mem_cons_of_mem _ hj, hgj⟩

theorem multiAssetGenerate_barOk (L : ℕ) (fr : String) (n : ℕ)
    (mus sigmas : List ℝ) (corr : ℕ → ℕ → ℝ) (oa : ℕ → Oracle)
    (bc : List (Option ℝ))
    (hsig : ∀ s ∈ sigmas, 0 ≤ s ∧ s < 2)
    (hbc : ∀ x ∈ bc, 0 < x.getD 100) :
    ∀ g ∈ exceptFrames (multiAssetGenerate L fr n mus sigmas corr oa bc),
      ∀ bar ∈ g.bars, BarOk bar := by
  intro g hg bar hbar
  simp only [multiAssetGenerate, exceptFrames] at hg
  cases hok : (List.range n).mapM (fun i =>
      mkFrame (DateSpec.byFreq (freqStr fr) L) L
        (synthOpens ((if sigmas.length = n then sigmas
            else List.replicate n 0.01).getD i 0.01) (oa i).gap
          (walk (fun p j => p * Real.exp
            ((if mus.length = n then mus
              else List.replicate n 0.0001).getD i 0.0001 +
              (if sigmas.length = n then sigmas
                else List.replicate n 0.01).getD i 0.01 * corr j i))
            ((bc.getD i none).getD 100) 1 ((L : ℤ) - 1).toNat))
        ((synthHL ((if sigmas.length = n then sigmas
            else List.replicate n 0.01).getD i 0.01) (oa i).u1 (oa i).u2
          (synthOpens ((if sigmas.length = n then sigmas
              else List.replicate n 0.01).getD i 0.01) (oa i).gap
            (walk (fun p j => p * Real.exp
              ((if mus.length = n then mus
                else List.replicate n 0.0001).getD i 0.0001 +
                (if sigmas.length = n then sigmas
                  else List.replicate n 0.01).getD i 0.01 * corr j i))
              ((bc.getD i none).getD 100) 1 ((L : ℤ) - 1).toNat))
          (walk (fun p j => p * Real.exp
            ((if mus.length = n then mus
              else List.replicate n 0.0001).getD i 0.0001 +
              (if sigmas.length = n then sigmas
                else List.replicate n 0.01).getD i 0.01 * corr j i))
            ((bc.getD i none).getD 100) 1
            ((L : ℤ) - 1).toNat)).map Prod.fst)
        ((synthHL ((if sigmas.length = n then sigmas
            else List.replicate n 0.01).getD i 0.01) (oa i).u1 (oa i).u2
          (synthOpens ((if sigmas.length = n then sigmas
              else List.replicate n 0.01).getD i 0.01) (oa i).gap
            (walk (fun p j => p * Real.exp
              ((if mus.length = n then mus
                else List.replicate n 0.0001).getD i 0.0001 +
                (if sigmas.length = n then sigmas
                  else List.replicate n 0.01).getD i 0.01 * corr j i))
              ((bc.getD i none).getD 100) 1 ((L : ℤ) - 1).toNat))
          (walk (fun p j => p * Real.exp
            ((if mus.length = n then mus
              else List.replicate n 0.0001).getD i 0.0001 +
              (if sigmas.length = n then sigmas
                else List.replicate n 0.01).getD i 0.01 * corr j i))
            ((bc.getD i none).getD 100) 1
            ((L : ℤ) - 1).toNat)).map Prod.snd)
        (walk (fun p j => p * Real.exp
          ((if mus.length = n then mus
            else List.replicate n 0.0001).getD i 0.0001 +
            (if sigmas.length = n then sigmas
              else List.replicate n 0.01).getD i 0.01 * corr j i))
          ((bc.getD i none).getD 100) 1 ((L : ℤ) - 1).toNat)
        (mcVolumes (oa i).zvol
          (walk (fun p j => p * Real.exp
            ((if mus.length = n then mus
              else List.replicate n 0.0001).getD i 0.0001 +
              (if sigmas.length = n then sigmas
                else List.replicate n 0.01).getD i 0.01 * corr j i))
            ((bc.getD i none).getD 100) 1 ((L : ℤ) - 1).toNat))) with
  | error e => rw [hok] at hg; simp at hg
  | ok fs =>
      rw [hok] at hg
      simp only at hg
      obtain ⟨i, _, hgen⟩ := mapM_ok_mem _ _ _ hok g hg
      have hsigi : 0 ≤ (if sigmas.length = n then sigmas
          else List.replicate n 0.01).getD i 0.01 ∧
          (if sigmas.length = n then sigmas
            else List.replicate n 0.01).getD i 0.01 < 2 := by
        split
        · rcases getD_cases sigmas i 0.01 with h | h
          · rw [h]; norm_num
          · exact hsig _ h
        · rcases getD_cases (List.replicate n (0.01 : ℝ)) i 0.01 with h | h
          · rw [h]; norm_num
          · rw [List.eq_of_mem_replicate h]; norm_num
      have hstart : 0 < (bc.getD i none).getD 100 := by
        rcases getD_cases bc i none with h | h
        · rw [h]; norm_num
        · exact hbc _ h
      have hppos : ∀ x ∈ walk (fun p j => p * Real.exp
          ((if mus.length = n then mus
            else List.replicate n 0.0001).getD i 0.0001 +
            (if sigmas.length = n then sigmas
              else List.replicate n 0.01).getD i 0.01 * corr j i))
          ((bc.getD i none).getD 100) 1 ((L : ℤ) - 1).toNat, 0 < x :=
        walk_pos _ (fun p k hp => mul_pos hp (Real.exp_pos _))
          ((bc.getD i none).getD 100) hstart 1 ((L : ℤ) - 1).toNat
      exact ohlcFrame_barOk _ _ _ (oa i).u1 (oa i).u2 _ _ _ g
        (synthOpens_pos _ (oa i) _ hppos hsigi.1 hsigi.2) hppos
        (mcVolumes_nonneg (oa i).zvol _ hppos) hgen bar hbar

theorem walk_ne_nil (f : ℝ → ℕ → ℝ) (start : ℝ) (i n : ℕ) :
    walk f start i n ≠ [] := by
  cases n <;> simp [walk]

theorem stressCrash_pos (L cd cr : ℕ) (ci mu sigma : ℝ) (o : Oracle)
    (sp : ℝ) (hsp : 0 < sp) (ps : List ℝ)
    (h : stressCrash L cd cr ci mu sigma o sp = Except.ok ps) :
    ∀ x ∈ ps, 0 < x := by
  simp only [stressCrash] at h
  split at h <;>
  · split at h
    · exact Except.noConfusion h
    · cases h
      intro x hx
      simp only [List.mem_append, List.mem_map] at hx
      rcases hx with (hx | ⟨y, _, rfl⟩) | ⟨y, _, rfl⟩
      · exact gbmCloses_pos mu sigma o.z sp hsp _ x hx
      · exact Real.exp_pos _
      · exact Real.exp_pos _

theorem stressRally_pos (L rd rc : ℕ) (ri mu sigma : ℝ) (o : Oracle)
    (sp : ℝ) (hsp : 0 < sp) (ps : List ℝ)
    (h : stressRally L rd rc ri mu sigma o sp = Except.ok ps) :
    ∀ x ∈ ps, 0 < x := by
  simp only [stressRally] at h
  split at h <;>
  · split at h
    · exact Except.noConfusion h
    · cases h
      intro x hx
      simp only [List.mem_append, List.mem_map] at hx
      rcases hx with (hx | ⟨y, _, rfl⟩) | ⟨y, _, rfl⟩
      · exact gbmCloses_pos mu sigma o.z sp hsp _ x hx
      · exact Real.exp_pos _
      · exact Real.exp_pos _

theorem stressVolPhase_pos (L vd : ℕ) (vm mu sigma : ℝ) (o : Oracle)
    (sp : ℝ) (hsp : 0 < sp) :
    ∀ x ∈ stressVolPhase L vd vm mu sigma o sp, 0 < x := by
  simp only [stressVolPhase]
  have hbefore := gbmCloses_pos mu sigma o.z sp hsp
    (Int.fdiv ((L : ℤ) - vd) 2)
  have hvstart : 0 < (gbmCloses mu sigma o.z sp
      (Int.fdiv ((L : ℤ) - vd) 2)).getLastD 0 :=
    getLastD_pos _ (walk_ne_nil _ _ _ _) hbefore
  have hvol := gbmCloses_pos mu (sigma * vm) o.z2 _ hvstart (vd : ℤ)
  have hastart : 0 < (gbmCloses mu (sigma * vm) o.z2
      ((gbmCloses mu sigma o.z sp
        (Int.fdiv ((L : ℤ) - vd) 2)).getLastD 0) (vd : ℤ)).getLastD 0 :=
    getLastD_pos _ (walk_ne_nil _ _ _ _) hvol
  have hafter := gbmCloses_pos mu sigma o.z3 _ hastart
    ((L : ℤ) - Int.fdiv ((L : ℤ) - vd) 2 - vd)
  intro x hx
  simp only [List.mem_append] at hx
  rcases hx with (hx | hx) | hx
  · exact hbefore x hx
  · exact hvol x hx
  · exact hafter x hx

theorem stressPricesFor_pos (L cd cr rd rc vd : ℕ)
    (ci ri vm mu sigma : ℝ) (et : String) (pick : ℕ) (o : Oracle)
    (sp : ℝ) (hsp : 0 < sp) (ps : List ℝ)
    (h : stressPricesFor L cd cr rd rc vd ci ri vm mu sigma et pick o sp =
      Except.ok ps) : ∀ x ∈ ps, 0 < x := by
  simp only [stressPricesFor] at h
  split at h
  · exact stressCrash_pos L cd cr ci mu sigma o sp hsp ps h
  · split at h
    · exact stressRally_pos L rd rc ri mu sigma o sp hsp ps h
    · split at h
      · cases h
        exact stressVolPhase_pos L vd vm mu sigma o sp hsp
      · split at h
        · exact stressCrash_pos L cd cr ci mu sigma o sp hsp ps h
        · split at h
          · exact stressRally_pos L rd rc ri mu sigma o sp hsp ps h
          · cases h
            exact stressVolPhase_pos L vd vm mu sigma o sp hsp

theorem stressGenerate_barOk (L cd cr rd rc vd : ℕ)
    (ci ri vm mu sigma : ℝ) (et : String) (pick : ℕ) (fr : String)
    (o : Oracle) (b : Option ℝ) (hs0 : 0 ≤ sigma) (hs2 : sigma < 2)
    (hb : 0 < b.getD 100) :
    ∀ bar ∈ exceptBars (stressGenerate L cd cr rd rc vd ci ri vm mu sigma
      et pick fr o b), BarOk bar := by
  intro bar hbar
  rw [stressGenerate] at hbar
  cases hps : stressPricesFor L cd cr rd rc vd ci ri vm mu sigma et pick o
      (b.getD 100) with
  | error e => rw [hps] at hbar; simp [exceptBars] at hbar
  | ok ps =>
      rw [hps] at hbar
      simp only [exceptBars] at hbar
      have hppos := stressPricesFor_pos L cd cr rd rc vd ci ri vm mu sigma
        et pick o (b.getD 100) hb ps hps
      cases hok : mkFrame (DateSpec.byFreq (freqStr fr) ps.length)
          ps.length (synthOpens sigma o.gap ps)
          ((synthHL sigma o.u1 o.u2 (synthOpens sigma o.gap ps) ps).map
            Prod.fst)
          ((synthHL sigma o.u1 o.u2 (synthOpens sigma o.gap ps) ps).map
            Prod.snd) ps (stressVolumes o.zvol ps) with
      | error e => rw [hok] at hbar; simp at hbar
      | ok f =>
          rw [hok] at hbar
          simp only at hbar
          exact ohlcFrame_barOk _ _ sigma o.u1 o.u2 _ _ _ f
            (synthOpens_pos sigma o ps hppos hs0 hs2) hppos
            (stressVolumes_nonneg o.zvol ps hppos) hok bar hbar

/-- C5: for every generator and every valid configuration (volatilities in
`[0, 2)`, positive start prices, regime volatilities in `[0, 2)`), every
bar of the returned series satisfies
`low ≤ min(open, close) ≤ max(open, close) ≤ high`, `low > 0` and
`volume ≥ 0`; for the extreme-event generator the `0.01` price floor makes
this unconditional. -/
theorem generated_bars_ok :
    (∀ (L : ℕ) (fr : String) (mu sigma : ℝ) (o : Oracle) (b : Option ℝ),
      0 ≤ sigma → sigma < 2 → 0 < b.getD 100 →
      ∀ bar ∈ exceptBars (monteCarloGenerate L fr mu sigma o b),
        BarOk bar) ∧
    (∀ (L : ℕ) (fr : String) (om al be ip : ℝ) (o : Oracle)
      (b : Option ℝ), 0 < b.getD ip →
      ∀ bar ∈ exceptBars (garchGenerate L fr om al be ip o b),
        BarOk bar) ∧
    (∀ (L : ℕ) (fr : String) (states : ℕ) (params : List (ℝ × ℝ))
      (ip : ℝ) (o : Oracle) (b : Option ℝ), 0 < b.getD ip →
      (∀ pr ∈ params, 0 ≤ pr.2 ∧ pr.2 < 2) →
      ∀ bar ∈ exceptBarsR (regimeGenerate L fr states params ip o b),
        BarOk bar) ∧
    (∀ (L : ℕ) (fr : String) (cp ci sp si : ℝ) (o : Oracle)
      (b : Option ℝ),
      ∀ bar ∈ exceptBars (extremeGenerate L fr cp ci sp si o b),
        BarOk bar) ∧
    (∀ (L : ℕ) (fr : String) (n : ℕ) (mus sigmas : List ℝ)
      (corr : ℕ → ℕ → ℝ) (oa : ℕ → Oracle) (bc : List (Option ℝ)),
      (∀ s ∈ sigmas, 0 ≤ s ∧ s < 2) → (∀ x ∈ bc, 0 < x.getD 100) →
      ∀ g ∈ exceptFrames (multiAssetGenerate L fr n mus sigmas corr oa bc),
        ∀ bar ∈ g.bars, BarOk bar) ∧
    (∀ (L cd cr rd rc vd : ℕ) (ci ri vm mu sigma : ℝ) (et : String)
      (pick : ℕ) (fr : String) (o : Oracle) (b : Option ℝ),
      0 ≤ sigma → sigma < 2 → 0 < b.getD 100 →
      ∀ bar ∈ exceptBars (stressGenerate L cd cr rd rc vd ci ri vm mu
        sigma et pick fr o b), BarOk bar) :=
  ⟨fun L fr mu sigma o b hs0 hs2 hb =>
      monteCarloGenerate_barOk L fr mu sigma o b hs0 hs2 hb,
    fun L fr om al be ip o b hb => garchGenerate_barOk L fr om al be ip o
      b hb,
    fun L fr states params ip o b hb hp =>
      regimeGenerate_barOk L fr states params ip o b hb hp,
    fun L fr cp ci sp si o b => extremeGenerate_barOk L fr cp ci sp si o b,
    fun L fr n mus sigmas corr oa bc hs hb =>
      multiAssetGenerate_barOk L fr n mus sigmas corr oa bc hs hb,
    fun L cd cr rd rc vd ci ri vm mu sigma et pick fr o b hs0 hs2 hb =>
      stressGenerate_barOk L cd cr rd rc vd ci ri vm mu sigma et pick fr o
        b hs0 hs2 hb⟩

/-- Witness for C5 at concrete small configurations with the zero
oracle. -/
theorem generated_bars_ok_witness :
    ((0 : ℝ) ≤ 0.01 ∧ (0.01 : ℝ) < 2 ∧
      (0 : ℝ) < ((none : Option ℝ).getD 100) ∧
      ∀ bar ∈ exceptBars (monteCarloGenerate 5 "D" 0.0001 0.01 zeroOracle
        none), BarOk bar) ∧
    ((0 : ℝ) < ((none : Option ℝ).getD 100) ∧
      ∀ bar ∈ exceptBars (garchGenerate 5 "D" 0.00001 0.1 0.8 100
        zeroOracle none), BarOk bar) ∧
    ((∀ pr ∈ [((0.0001 : ℝ), (0.01 : ℝ)), (0.0002, 0.03)],
        0 ≤ pr.2 ∧ pr.2 < 2) ∧
      ∀ bar ∈ exceptBarsR (regimeGenerate 5 "D" 2
        [(0.0001, 0.01), (0.0002, 0.03)] 100 zeroOracle none),
        BarOk bar) ∧
    (∀ bar ∈ exceptBars (extremeGenerate 5 "D" 0.01 0.1 0.01 0.1
      zeroOracle none), BarOk bar) ∧
    ((∀ s ∈ [(0.01 : ℝ), 0.02], 0 ≤ s ∧ s < 2) ∧
      ∀ g ∈ exceptFrames (multiAssetGenerate 5 "D" 2 [0.0001, 0.0002]
        [0.01, 0.02] (fun _ _ => 0) (fun _ => zeroOracle) []),
        ∀ bar ∈ g.bars, BarOk bar) ∧
    (∀ bar ∈ exceptBars (stressGenerate 100 20 60 20 30 40 0.3 0.3 3.0
      0.0001 0.01 "crash" 0 "D" zeroOracle none), BarOk bar) :=
  ⟨⟨by norm_num, by norm_num, by simp, generated_bars_ok.1 5 "D" 0.0001
      0.01 zeroOracle none (by norm_num) (by norm_num) (by simp)⟩,
    ⟨by simp, generated_bars_ok.2.1 5 "D" 0.00001 0.1 0.8 100 zeroOracle
      none (by simp)⟩,
    ⟨by intro pr hpr; simp only [List.mem_cons, List.mem_singleton,
        List.not_mem_nil, or_false] at hpr; rcases hpr with rfl | rfl <;>
        norm_num,
      generated_bars_ok.2.2.1 5 "D" 2 [(0.0001, 0.01), (0.0002, 0.03)] 100
        zeroOracle none (by simp)
        (by intro pr hpr; simp only [List.mem_cons, List.mem_singleton,
          List.not_mem_nil, or_false] at hpr; rcases hpr with rfl | rfl <;>
          norm_num)⟩,
    generated_bars_ok.2.2.2.1 5 "D" 0.01 0.1 0.01 0.1 zeroOracle none,
    ⟨by intro s hs; simp only [List.mem_cons, List.mem_singleton,
        List.not_mem_nil, or_false] at hs; rcases hs with rfl | rfl <;>
        norm_num,
      generated_bars_ok.2.2.2.2.1 5 "D" 2 [0.0001, 0.0002] [0.01, 0.02]
        (fun _ _ => 0) (fun _ => zeroOracle) []
        (by intro s hs; simp only [List.mem_cons, List.mem_singleton,
          List.not_mem_nil, or_false] at hs; rcases hs with rfl | rfl <;>
          norm_num)
        (by intro x hx; simp at hx)⟩,
    generated_bars_ok.2.2.2.2.2 100 20 60 20 30 40 0.3 0.3 3.0 0.0001
      0.01 "crash" 0 "D" zeroOracle none (by norm_num) (by norm_num)
      (by simp)⟩

/-! ### Regime labels -/

theorem getD_map_range {α : Type} (f : ℕ → α) (n t : ℕ) (d : α)
    (h : t < n) : ((List.range n).map f).getD t d = f t := by
  rw [List.getD_eq_getElem _ d (by simpa using h)]
  simp

/-- C9 (amended): the `regime` label stored at bar `t` is the
post-transition state — the value of `current_state` after loop iteration
`t` (`regime.py` line 79), equal to `(regimeSeq t).2`.  Consequently the
label at bar `t` names the state whose (mu, sigma) parameters generate bar
`t+1`'s return, not bar `t`'s: close (t+1) = close t ·
exp(mu+sigma·z) with (mu, sigma) read off regime_params at the label of
bar `t` (`regime.py` lines 65–79). -/
theorem regime_label_is_post_transition_state (L : ℕ) (fr : String)
    (states : ℕ) (params : List (ℝ × ℝ)) (ip : ℝ) (o : Oracle)
    (b : Option ℝ) :
    (∀ t, t < L →
      (regimeLabels (regimeGenerate L fr states params ip o b)).getD t 0 =
        (regimeSeq params states o.z o.choice (b.getD ip) t).2) ∧
    (∀ t, t + 1 < L →
      ((exceptBarsR (regimeGenerate L fr states params ip o b)).getD
          (t + 1) default).close =
        ((exceptBarsR (regimeGenerate L fr states params ip o b)).getD t
            default).close *
          Real.exp ((params.getD ((regimeLabels (regimeGenerate L fr
              states params ip o b)).getD t 0) (0, 0)).1 +
            (params.getD ((regimeLabels (regimeGenerate L fr states params
              ip o b)).getD t 0) (0, 0)).2 * o.z (t + 1))) := by
  constructor
  · intro t ht
    rw [regimeGenerate, if_neg (by omega)]
    simp only [regimeLabels]
    exact getD_map_range _ _ _ _ ht
  · intro t ht
    rw [regimeGenerate, if_neg (by omega)]
    simp only [regimeLabels, exceptBarsR]
    rw [getD_map_range _ _ _ _ (by omega), getD_map_range _ _ _ _
      (by omega), getD_map_range _ _ _ _ (by omega)]
    rfl

/-- Witness for C9 (amended) at a three-bar two-state configuration. -/
theorem regime_label_is_post_transition_state_witness :
    (1 : ℕ) < 3 ∧ (1 : ℕ) + 1 < 3 ∧
      ((regimeLabels (regimeGenerate 3 "D" 2
          [(0.0001, 0.01), (0.0002, 0.03)] 100 zeroOracle none)).getD 1 0 =
        (regimeSeq [(0.0001, 0.01), (0.0002, 0.03)] 2 zeroOracle.z
          zeroOracle.choice ((none : Option ℝ).getD 100) 1).2) ∧
      (((exceptBarsR (regimeGenerate 3 "D" 2
          [(0.0001, 0.01), (0.0002, 0.03)] 100 zeroOracle none)).getD 2
            default).close =
        ((exceptBarsR (regimeGenerate 3 "D" 2
            [(0.0001, 0.01), (0.0002, 0.03)] 100 zeroOracle none)).getD 1
            default).close *
          Real.exp (([((0.0001 : ℝ), (0.01 : ℝ)), (0.0002, 0.03)].getD
              ((regimeLabels (regimeGenerate 3 "D" 2
                [(0.0001, 0.01), (0.0002, 0.03)] 100 zeroOracle
                none)).getD 1 0) (0, 0)).1 +
            ([((0.0001 : ℝ), (0.01 : ℝ)), (0.0002, 0.03)].getD
              ((regimeLabels (regimeGenerate 3 "D" 2
                [(0.0001, 0.01), (0.0002, 0.03)] 100 zeroOracle
                none)).getD 1 0) (0, 0)).2 * zeroOracle.z 2)) :=
  ⟨by norm_num, by norm_num,
    (regime_label_is_post_transition_state 3 "D" 2
      [(0.0001, 0.01), (0.0002, 0.03)] 100 zeroOracle none).1 1
      (by norm_num),
    (regime_label_is_post_transition_state 3 "D" 2
      [(0.0001, 0.01), (0.0002, 0.03)] 100 zeroOracle none).2 1
      (by norm_num)⟩

/-- Counterexample to C9 as stated: with two states, the oracle whose
every categorical draw picks state 1, and distinct per-state parameters,
the label recorded at bar 1 is 1 (the post-transition state) even though
bar 1's return was generated from state 0's parameters
`(0.0001, 0.01)` — the parameter pair at the recorded label,
`(0.0002, 0.03)`, is not the pair that generated the bar's return. -/
theorem regime_label_not_generating_regime :
    (regimeLabels (regimeGenerate 3 "D" 2 [(0.0001, 0.01), (0.0002, 0.03)]
        100 oneChoiceOracle none)).getD 1 0 = 1 ∧
      ((exceptBarsR (regimeGenerate 3 "D" 2
          [(0.0001, 0.01), (0.0002, 0.03)] 100 oneChoiceOracle
          none)).getD 1 default).close =
        100 * Real.exp (0.0001 + 0.01 * 0) ∧
      ([((0.0001 : ℝ), (0.01 : ℝ)), (0.0002, 0.03)].getD 1 (0, 0)) ≠
        (0.0001, 0.01) := by
  refine ⟨?_, ?_, ?_⟩
  · rw [regimeGenerate, if_neg (by norm_num)]
    simp only [regimeLabels]
    rw [getD_map_range _ _ _ _ (by norm_num)]
    rfl
  · rw [regimeGenerate, if_neg (by norm_num)]
    simp only [exceptBarsR]
    rw [getD_map_range _ _ _ _ (by norm_num)]
    rfl
  · intro h
    have h2 := congrArg Prod.snd h
    simp only [List.getD_cons_succ, List.getD_cons_zero] at h2
    norm_num at h2

/-! ### The feed adapter mutates its argument -/

theorem lookup_append_single_isSome (l : List (String × List ℝ))
    (k : String) (v : List ℝ) : ((l ++ [(k, v)]).lookup k).isSome = true := by
  induction l with
  | nil => simp [List.lookup]
  | cons a l ih =>
      obtain ⟨ak, av⟩ := a
      simp only [List.cons_append, List.lookup]
      cases h : k == ak
      · exact ih
      · rfl

/-- C10 (amended): `to_bt_feed` operates in place on the caller's
DataFrame (`base.py` lines 49, 62–69, 73: `set_index(..., inplace=True)`
and direct column assignment `data[col] = ...`): on every successful call
the caller's object ends up carrying an `openinterest` column, so whenever
the input lacked one, the caller's DataFrame has been mutated and differs
from the object passed in. -/
theorem to_bt_feed_mutates (df df' : PyDF)
    (h : to_bt_feed df = Except.ok df') :
    ((df'.cols.lookup "openinterest").isSome = true) ∧
    (df.cols.lookup "openinterest" = none → df' ≠ df) := by
  have hsome : (df'.cols.lookup "openinterest").isSome = true := by
    simp only [to_bt_feed] at h
    split at h
    · exact Except.noConfusion h
    · split at h
      · exact Except.noConfusion h
      · split at h
        · rename_i hc
          cases h
          exact hc
        · cases h
          exact lookup_append_single_isSome _ _ _
  refine ⟨hsome, ?_⟩
  intro hnone heq
  rw [heq, hnone] at hsome
  simp at hsome

/-- Witness for C10 (amended): a datetime-indexed two-row frame holding
only a `close` column comes back with six columns, `openinterest` among
them, and is no longer the object that went in. -/
theorem to_bt_feed_mutates_witness :
    (((PyDF.mk true 2 [("close", [(1 : ℝ), 2]), ("open", [1, 2]),
        ("high", [1, 2]), ("low", [1, 2]), ("volume", [0, 0]),
        ("openinterest", [0, 0])]).cols.lookup "openinterest").isSome
      = true) ∧
    ((PyDF.mk true 2 [("close", [(1 : ℝ), 2])]).cols.lookup "openinterest"
        = none →
      PyDF.mk true 2 [("close", [(1 : ℝ), 2]), ("open", [1, 2]),
          ("high", [1, 2]), ("low", [1, 2]), ("volume", [0, 0]),
          ("openinterest", [0, 0])] ≠
        PyDF.mk true 2 [("close", [(1 : ℝ), 2])]) :=
  to_bt_feed_mutates (PyDF.mk true 2 [("close", [(1 : ℝ), 2])])
    (PyDF.mk true 2 [("close", [(1 : ℝ), 2]), ("open", [1, 2]),
      ("high", [1, 2]), ("low", [1, 2]), ("volume", [0, 0]),
      ("openinterest", [0, 0])]) (by rfl)

/-- Counterexample to C10 as stated: calling `to_bt_feed` on a
datetime-indexed DataFrame with a single `close` column succeeds and hands
the caller back a changed object — five columns were added to it in
place — so the adapter is not free of side effects on its argument. -/
theorem to_bt_feed_not_pure :
    ∃ df' : PyDF, to_bt_feed (PyDF.mk true 2 [("close", [(1 : ℝ), 2])]) =
      Except.ok df' ∧ df' ≠ PyDF.mk true 2 [("close", [(1 : ℝ), 2])] := by
  refine ⟨PyDF.mk true 2 [("close", [(1 : ℝ), 2]), ("open", [1, 2]),
    ("high", [1, 2]), ("low", [1, 2]), ("volume", [0, 0]),
    ("openinterest", [0, 0])], by rfl, ?_⟩
  intro h
  have h2 := congrArg (fun d => d.cols.length) h
  simp at h2

end AutoBt
